import Mathlib

/-!
Verification development for the trackscargo backend.

The definitions below are a shallow embedding of the TypeScript source:
  - `src/utils/trackingNumber.ts`  (tracking number allocator)
  - `src/services/shipment.service.ts` together with
    `src/repositories/shipment.repository.ts`  (shipment ledger)
  - `src/services/invitation.service.ts` together with
    `src/repositories/userInvitation.repository.ts`  (invitation workflow)

Machine representation choices: timestamps are milliseconds since the epoch
as `Nat` (JavaScript `Date.getTime()`); database row ids are `Nat` drawn
from a fresh-id counter (the database assigns opaque unique ids); strings
are Lean `String`; a missing optional value is `Option.none` (JavaScript
`undefined` / `null`).  Character-level string operations are modelled over
`List Char` in the ASCII range, which covers every character the programs
compare against.
-/

namespace Trackscargo

/-! ### Character helpers

`jsSpace` models the JavaScript `\s` character class (restricted to its
ASCII members: space, tab, line feed, vertical tab, form feed, carriage
return) as used by `trim()` and `split(/\s+/)`.  `isUpperAlpha` is the
regex character range `A-Z` (codes 65 to 90), `isLowerAlpha` is `a-z`
(codes 97 to 122). -/

def jsSpace (c : Char) : Bool :=
  c.toNat = 32 || c.toNat = 9 || c.toNat = 10 || c.toNat = 11 || c.toNat = 12 || c.toNat = 13

def isUpperAlpha (c : Char) : Bool :=
  65 ≤ c.toNat && c.toNat ≤ 90

def isLowerAlpha (c : Char) : Bool :=
  97 ≤ c.toNat && c.toNat ≤ 122

/-- An ASCII letter, in either case. -/
def isAsciiAlpha (c : Char) : Bool :=
  isUpperAlpha c || isLowerAlpha c

/-- JavaScript `String.prototype.trim()` on the character list: strip
whitespace from both ends. -/
def trimChars (l : List Char) : List Char :=
  ((l.dropWhile jsSpace).reverse.dropWhile jsSpace).reverse

/-- JavaScript `.toUpperCase()` applied character-wise (ASCII fragment);
`Char.toUpper` maps codes 97..122 down by 32 and fixes everything else,
exactly as `toUpperCase` does on ASCII. -/
def upperChars (l : List Char) : List Char :=
  l.map Char.toUpper

/-- `.replace(/[^A-Z\s]/g, '')`: keep only the characters matching `A-Z`
or `\s`, delete the rest. -/
def keepAlphaSpace (l : List Char) : List Char :=
  l.filter (fun c => isUpperAlpha c || jsSpace c)

/-- `.split(/\s+/)` followed by `.filter(word => word.length > 0)`: the
maximal runs of non-whitespace characters, in order.  The accumulator
holds the current run, reversed. -/
def splitWordsAux : List Char → List Char → List (List Char)
  | [], acc => if acc.isEmpty then [] else [acc.reverse]
  | c :: cs, acc =>
    if jsSpace c then
      if acc.isEmpty then splitWordsAux cs []
      else acc.reverse :: splitWordsAux cs []
    else splitWordsAux cs (c :: acc)

def splitWords (l : List Char) : List (List Char) :=
  splitWordsAux l []

/-- The cleaned word list `generateOrgInitials` computes:
`organizationName.trim().toUpperCase().replace(/[^A-Z\s]/g, '').split(/\s+/).filter(w => w.length > 0)`. -/
def orgWords (organizationName : String) : List (List Char) :=
  splitWords (keepAlphaSpace (upperChars (trimChars organizationName.toList)))

/-- `generateOrgInitials` from `src/utils/trackingNumber.ts`.  A thrown
`Error` is modelled as `Except.error` carrying the message. -/
def generateOrgInitials (organizationName : String) : Except String String :=
  if trimChars organizationName.toList = [] then
    .error "Organization name is required to generate initials"
  else
    match orgWords organizationName with
    | [] => .error "Organization name must contain at least one alphabetic character"
    | [word] =>
      -- single word: take first 2-3 characters
      .ok (String.mk (if word.length ≥ 3 then word.take 3 else word))
    | [w1, w2] =>
      -- two words: take first letter of each
      .ok (String.mk (w1.take 1 ++ w2.take 1))
    | words =>
      -- three or more words: take first letter of each, max 4 characters
      .ok (String.mk (((words.map (fun w => w.take 1)).flatten).take 4))

/-- `generateTrackingNumber` from `src/utils/trackingNumber.ts`:
`INITIALS-SUFFIX` with the user input trimmed, rejecting a blank input. -/
def generateTrackingNumber (organizationName userInput : String) : Except String String :=
  match generateOrgInitials organizationName with
  | .error e => .error e
  | .ok initials =>
    let cleanInput := String.mk (trimChars userInput.toList)
    if cleanInput.isEmpty then .error "Tracking number input is required"
    else .ok (initials ++ "-" ++ cleanInput)

/-- JavaScript `fullTrackingNumber.split('-')`: the runs between hyphen
occurrences (so `"" .split('-') = [""]` and separators at the ends yield
empty fragments). -/
def splitOnHyphenAux : List Char → List Char → List (List Char)
  | [], acc => [acc.reverse]
  | c :: cs, acc =>
    if c = '-' then acc.reverse :: splitOnHyphenAux cs []
    else splitOnHyphenAux cs (c :: acc)

def splitOnHyphen (l : List Char) : List (List Char) :=
  splitOnHyphenAux l []

/-- `parseTrackingNumber` from `src/utils/trackingNumber.ts`: split on
the hyphens; fewer than two parts is malformed, otherwise the first part
is the organization initials and the remaining parts re-joined with `-`
are the user input. -/
def parseTrackingNumber (fullTrackingNumber : String) : Except String (String × String) :=
  match splitOnHyphen fullTrackingNumber.toList with
  | p0 :: p1 :: rest =>
    .ok (String.mk p0, String.mk (List.intercalate ['-'] (p1 :: rest)))
  | _ => .error "Invalid tracking number format. Expected format: ORG-NUMBER"

/-! ### Shipment ledger data model

Rows of the `organization`, `shipment` and `travelEvent` tables, restricted
to the fields the shipment service reads or writes.  `LedgerState.nextId`
is the fresh-id source standing in for database id generation. -/

structure Organization where
  id : Nat
  name : String
deriving DecidableEq

structure Shipment where
  id : Nat
  trackingNumber : String
  organizationId : Nat
  origin : String
  destination : String
  weight : Int
  pieces : Nat
  currentStatus : String
  company : Option String
  createdByUserId : Nat
deriving DecidableEq

structure TravelEvent where
  id : Nat
  shipmentId : Nat
  status : String
  location : String
  description : String
  timestamp : Nat
  eventType : String
  createdByUserId : Option Nat
deriving DecidableEq

structure LedgerState where
  orgs : List Organization
  shipments : List Shipment
  events : List TravelEvent
  nextId : Nat
deriving DecidableEq

/-- `CreateShipmentDTO` from `src/types/shipment.types.ts`; the
`trackingNumber` field is the user-supplied suffix. -/
structure CreateShipmentDTO where
  trackingNumber : String
  origin : String
  destination : String
  weight : Int
  pieces : Nat
  status : String
  company : Option String
deriving DecidableEq

/-- `CreateTravelEventDTO` from `src/types/shipment.types.ts`.  Note there
is no timestamp field: the caller cannot supply one. -/
structure CreateTravelEventDTO where
  status : String
  location : String
  description : Option String
  eventType : String
deriving DecidableEq

/-- `UpdateTravelEventDTO` from `src/types/shipment.types.ts`: the patch
admits exactly these four optional fields. -/
structure UpdateTravelEventDTO where
  status : Option String
  location : Option String
  description : Option String
  eventType : Option String
deriving DecidableEq

/-! ### Sorting travel events

`events.sort((a, b) => new Date(b.timestamp).getTime() - new Date(a.timestamp).getTime())`
and the Prisma `orderBy: { timestamp: 'desc' }` both order by timestamp
descending, with an unspecified tie-break; any sort by the comparator is a
faithful model. -/

def tsDescRel (a b : TravelEvent) : Prop :=
  b.timestamp ≤ a.timestamp

instance : DecidableRel tsDescRel := fun a b =>
  inferInstanceAs (Decidable (b.timestamp ≤ a.timestamp))

instance : IsTotal TravelEvent tsDescRel :=
  ⟨fun a b => Nat.le_total b.timestamp a.timestamp⟩

instance : IsTrans TravelEvent tsDescRel :=
  ⟨fun _ _ _ h1 h2 => Nat.le_trans h2 h1⟩

def sortByTimestampDesc (l : List TravelEvent) : List TravelEvent :=
  List.insertionSort tsDescRel l

/-! ### Shipment repository (`src/repositories/shipment.repository.ts`)

Each Prisma query is modelled on the in-memory table lists; `findFirst`
is `List.find?`, a `where` clause is the predicate, `include: travelEvents
(orderBy timestamp desc)` is the sorted per-shipment event list. -/

namespace ShipmentRepository

/-- `findByTrackingNumber`: public lookup, **no organization filter**. -/
def findByTrackingNumber (st : LedgerState) (trackingNumber : String) : Option Shipment :=
  st.shipments.find? (fun s => s.trackingNumber == trackingNumber)

/-- `findByTrackingNumberAndOrganization`. -/
def findByTrackingNumberAndOrganization (st : LedgerState) (trackingNumber : String)
    (organizationId : Nat) : Option Shipment :=
  st.shipments.find? (fun s =>
    s.trackingNumber == trackingNumber && s.organizationId == organizationId)

/-- `findByIdAndOrganization`. -/
def findByIdAndOrganization (st : LedgerState) (id organizationId : Nat) : Option Shipment :=
  st.shipments.find? (fun s => s.id == id && s.organizationId == organizationId)

/-- The rows of the `travelEvent` table belonging to one shipment
(unsorted `where shipmentId` selection). -/
def travelEventsOf (st : LedgerState) (shipmentId : Nat) : List TravelEvent :=
  st.events.filter (fun e => e.shipmentId == shipmentId)

/-- `findTravelEventsByShipment`: `where shipmentId`, `orderBy timestamp desc`. -/
def findTravelEventsByShipment (st : LedgerState) (shipmentId : Nat) : List TravelEvent :=
  sortByTimestampDesc (travelEventsOf st shipmentId)

/-- `updateStatus`: set `currentStatus` on the shipment row. -/
def updateStatus (st : LedgerState) (shipmentId : Nat) (status : String) : LedgerState :=
  { st with
    shipments := st.shipments.map (fun s =>
      if s.id = shipmentId then { s with currentStatus := status } else s) }

/-- `findTravelEventByIdAndOrganization`: the join that accepts the event
only when its owning shipment belongs to the given organization. -/
def findTravelEventByIdAndOrganization (st : LedgerState) (eventId organizationId : Nat) :
    Option TravelEvent :=
  st.events.find? (fun e =>
    e.id == eventId &&
      st.shipments.any (fun s => s.id == e.shipmentId && s.organizationId == organizationId))

/-- The effect of the Prisma `travelEvent.update` data object: a field is
written when present in the patch and untouched when `undefined`. -/
def applyEventPatch (e : TravelEvent) (data : UpdateTravelEventDTO) : TravelEvent :=
  { e with
    status := data.status.getD e.status
    location := data.location.getD e.location
    description := data.description.getD e.description
    eventType := data.eventType.getD e.eventType }

/-- `updateTravelEvent` (repository level): patch the row with the given id. -/
def updateTravelEventRow (st : LedgerState) (eventId : Nat) (data : UpdateTravelEventDTO) :
    LedgerState :=
  { st with
    events := st.events.map (fun e => if e.id = eventId then applyEventPatch e data else e) }

/-- `deleteTravelEvent` (repository level): delete the row with the given id. -/
def deleteTravelEventRow (st : LedgerState) (eventId : Nat) : LedgerState :=
  { st with events := st.events.filter (fun e => !(e.id == eventId)) }

end ShipmentRepository

/-! ### Shipment service (`src/services/shipment.service.ts`)

Thrown `Error` values are `Except.error` with the thrown message; a
successful call returns the response value paired with the post state. -/

/-- Response shape of one travel event (`TravelEventResponse`): the
classification tag is renamed to `type`; the source renders the timestamp
with `toISOString()`, kept numeric here (the rendering is injective). -/
structure TravelEventResponse where
  id : Nat
  status : String
  location : String
  description : String
  timestamp : Nat
  type : String
deriving DecidableEq

/-- Response shape of a shipment (`ShipmentResponse`): `currentStatus` is
flattened to a field named `status`. -/
structure ShipmentResponse where
  id : Nat
  trackingNumber : String
  origin : String
  destination : String
  weight : Int
  pieces : Nat
  status : String
  company : Option String
  travelHistory : List TravelEventResponse
deriving DecidableEq

namespace ShipmentService

def formatTravelEvent (e : TravelEvent) : TravelEventResponse :=
  { id := e.id, status := e.status, location := e.location,
    description := e.description, timestamp := e.timestamp, type := e.eventType }

/-- `formatShipmentResponse`: the shipment rows arrive from the repository
with their events included, ordered newest first. -/
def formatShipmentResponse (st : LedgerState) (s : Shipment) : ShipmentResponse :=
  { id := s.id, trackingNumber := s.trackingNumber, origin := s.origin,
    destination := s.destination, weight := s.weight, pieces := s.pieces,
    status := s.currentStatus, company := s.company,
    travelHistory :=
      (ShipmentRepository.findTravelEventsByShipment st s.id).map formatTravelEvent }

/-- `getByTrackingNumber`: public, no organization filter. -/
def getByTrackingNumber (st : LedgerState) (trackingNumber : String) : Option ShipmentResponse :=
  (ShipmentRepository.findByTrackingNumber st trackingNumber).map (formatShipmentResponse st)

/-- The public route `GET /track/:trackingNumber` is registered without the
auth middleware: the handler never reads a caller identity, so the caller
argument (an organization id, or `none` for an unauthenticated caller) is
unused. -/
def trackByNumber (_caller : Option Nat) (st : LedgerState) (trackingNumber : String) :
    Option ShipmentResponse :=
  getByTrackingNumber st trackingNumber

/-- `createShipment`: compose the prefixed tracking number from the
organization name, reject a duplicate `(trackingNumber, organizationId)`
pair, insert the row with `currentStatus` taken from the caller-supplied
status attribute, refetch and format. -/
def createShipment (st : LedgerState) (data : CreateShipmentDTO)
    (organizationId createdByUserId : Nat) : Except String (ShipmentResponse × LedgerState) :=
  match st.orgs.find? (fun o => o.id == organizationId) with
  | none => .error "Organization not found"
  | some organization =>
    match generateTrackingNumber organization.name data.trackingNumber with
    | .error e => .error e
    | .ok fullTrackingNumber =>
      match ShipmentRepository.findByTrackingNumberAndOrganization st fullTrackingNumber
          organizationId with
      | some _ => .error "Tracking number already exists in your organization"
      | none =>
        let shipment : Shipment :=
          { id := st.nextId, trackingNumber := fullTrackingNumber,
            organizationId := organizationId, origin := data.origin,
            destination := data.destination, weight := data.weight,
            pieces := data.pieces, currentStatus := data.status,
            company := data.company, createdByUserId := createdByUserId }
        let st1 : LedgerState :=
          { st with shipments := st.shipments ++ [shipment], nextId := st.nextId + 1 }
        -- `findByIdAndOrganization(shipment.id, organizationId)!` refetch
        match ShipmentRepository.findByIdAndOrganization st1 shipment.id organizationId with
        | some withEvents => .ok (formatShipmentResponse st1 withEvents, st1)
        | none => .error "Shipment not found"

/-- `addTravelEvent`: tenant-scoped shipment lookup, append the event with
the server clock `now` as its timestamp, then overwrite `currentStatus`
with the status of the new event. -/
def addTravelEvent (st : LedgerState) (shipmentId organizationId : Nat)
    (data : CreateTravelEventDTO) (createdByUserId : Option Nat) (now : Nat) :
    Except String (TravelEventResponse × LedgerState) :=
  match ShipmentRepository.findByIdAndOrganization st shipmentId organizationId with
  | none => .error "Shipment not found"
  | some _ =>
    let travelEvent : TravelEvent :=
      { id := st.nextId, shipmentId := shipmentId, status := data.status,
        location := data.location, description := data.description.getD "",
        timestamp := now, eventType := data.eventType,
        createdByUserId := createdByUserId }
    let st1 : LedgerState :=
      { st with events := st.events ++ [travelEvent], nextId := st.nextId + 1 }
    let st2 := ShipmentRepository.updateStatus st1 shipmentId data.status
    .ok (formatTravelEvent travelEvent, st2)

/-- `recalculateShipmentStatus`: fetch the remaining events of the
shipment, sort by timestamp descending, use the status of the first
element, or the sentinel `"Created"` when no events remain (the sorted
list is empty exactly when the fetched list is, so the `events.length === 0`
check is the `[]` branch of the match). -/
def recalculateShipmentStatus (st : LedgerState) (shipmentId : Nat) : LedgerState :=
  let events := ShipmentRepository.findTravelEventsByShipment st shipmentId
  match sortByTimestampDesc events with
  | [] => ShipmentRepository.updateStatus st shipmentId "Created"
  | latestEvent :: _ => ShipmentRepository.updateStatus st shipmentId latestEvent.status

/-- JavaScript truthiness of `data.status` (a string option): `undefined`
and the empty string are falsy. -/
def jsTruthyStr : Option String → Bool
  | some s => !s.isEmpty
  | none => false

/-- `updateTravelEvent`: tenant-scoped event lookup through the shipment
join, apply the patch, and recalculate the shipment status only when the
patch carried a (truthy) status. -/
def updateTravelEvent (st : LedgerState) (eventId organizationId : Nat)
    (data : UpdateTravelEventDTO) : Except String (TravelEventResponse × LedgerState) :=
  match ShipmentRepository.findTravelEventByIdAndOrganization st eventId organizationId with
  | none => .error "Travel event not found"
  | some event =>
    let updatedEvent := ShipmentRepository.applyEventPatch event data
    let st1 := ShipmentRepository.updateTravelEventRow st eventId data
    let st2 :=
      if jsTruthyStr data.status then recalculateShipmentStatus st1 event.shipmentId else st1
    .ok (formatTravelEvent updatedEvent, st2)

/-- `deleteTravelEvent`: tenant-scoped event lookup, delete the row, then
always recalculate the owning shipment status. -/
def deleteTravelEvent (st : LedgerState) (eventId organizationId : Nat) :
    Except String LedgerState :=
  match ShipmentRepository.findTravelEventByIdAndOrganization st eventId organizationId with
  | none => .error "Travel event not found"
  | some event =>
    let st1 := ShipmentRepository.deleteTravelEventRow st eventId
    .ok (recalculateShipmentStatus st1 event.shipmentId)

end ShipmentService

/-! ### Reachable ledger states

One ledger operation per request; a thrown error leaves the stored state
unchanged (every write in the service happens after its checks pass). -/

inductive LedgerOp where
  | create (data : CreateShipmentDTO) (organizationId createdByUserId : Nat)
  | addEvent (shipmentId organizationId : Nat) (data : CreateTravelEventDTO)
      (createdByUserId : Option Nat) (now : Nat)
  | updateEvent (eventId organizationId : Nat) (data : UpdateTravelEventDTO)
  | deleteEvent (eventId organizationId : Nat)

def applyOp (st : LedgerState) (op : LedgerOp) : LedgerState :=
  match op with
  | .create data o u =>
    match ShipmentService.createShipment st data o u with
    | .ok (_, st') => st'
    | .error _ => st
  | .addEvent sid o data u now =>
    match ShipmentService.addTravelEvent st sid o data u now with
    | .ok (_, st') => st'
    | .error _ => st
  | .updateEvent eid o data =>
    match ShipmentService.updateTravelEvent st eid o data with
    | .ok (_, st') => st'
    | .error _ => st
  | .deleteEvent eid o =>
    match ShipmentService.deleteTravelEvent st eid o with
    | .ok st' => st'
    | .error _ => st

/-- Environment conditions under which the operations run in the deployed
system: the server clock used by `addTravelEvent` never runs behind a
timestamp it already handed out (the sane-clock assumption the spec makes
for the append-overwrite shortcut), and an update patch that carries a
status carries a non-empty one (enforced upstream by
`updateTravelEventValidation`: status must be non-empty if provided). -/
def opWF (st : LedgerState) : LedgerOp → Prop
  | .addEvent _ _ _ _ now => ∀ e ∈ st.events, e.timestamp ≤ now
  | .updateEvent _ _ data => data.status ≠ some ""
  | _ => True

/-- States reachable through the four shipment-ledger operations from a
shipment-free initial state (organizations are provisioned by the auth
workflow, outside these operations). -/
inductive Reachable : LedgerState → Prop
  | init (orgs : List Organization) (n : Nat) :
      Reachable { orgs := orgs, shipments := [], events := [], nextId := n }
  | step {st : LedgerState} (op : LedgerOp) :
      Reachable st → opWF st op → Reachable (applyOp st op)

/-! ### Status invariants -/

/-- The per-shipment postcondition of recalculation: `"Created"` when the
shipment has no events, otherwise the status of an event with the latest
timestamp (the tie-break among equal timestamps is arbitrary). -/
def statusInvariant (st : LedgerState) (shipmentId : Nat) : Prop :=
  ∀ s ∈ st.shipments, s.id = shipmentId →
    (ShipmentRepository.travelEventsOf st shipmentId = [] → s.currentStatus = "Created") ∧
    (ShipmentRepository.travelEventsOf st shipmentId ≠ [] →
      ∃ e ∈ ShipmentRepository.travelEventsOf st shipmentId,
        (∀ e' ∈ ShipmentRepository.travelEventsOf st shipmentId,
          e'.timestamp ≤ e.timestamp) ∧ s.currentStatus = e.status)

/-- The non-empty half of the spec invariant for one shipment: whenever the
event set is non-empty, `currentStatus` is the status of an event with the
latest timestamp. -/
def latestEventStatusOK (st : LedgerState) (s : Shipment) : Prop :=
  ShipmentRepository.travelEventsOf st s.id ≠ [] →
    ∃ e ∈ ShipmentRepository.travelEventsOf st s.id,
      (∀ e' ∈ ShipmentRepository.travelEventsOf st s.id, e'.timestamp ≤ e.timestamp) ∧
      s.currentStatus = e.status

/-- The inductive well-formedness bundle maintained by every operation:
ids are below the fresh-id counter, event ids are pairwise distinct, every
event belongs to an existing shipment, and every shipment with events
carries the latest-event status. -/
def ledgerWF (st : LedgerState) : Prop :=
  (∀ s ∈ st.shipments, s.id < st.nextId) ∧
  (∀ e ∈ st.events, e.id < st.nextId) ∧
  st.events.Pairwise (fun a b => a.id ≠ b.id) ∧
  (∀ e ∈ st.events, ∃ s ∈ st.shipments, s.id = e.shipmentId) ∧
  (∀ s ∈ st.shipments, latestEventStatusOK st s)

/-! ### Invitation workflow data model
(`src/repositories/userInvitation.repository.ts`,
`src/services/invitation.service.ts`) -/

structure UserInvitation where
  id : Nat
  organizationId : Nat
  email : String
  role : String
  invitedByUserId : Nat
  invitationToken : String
  expiresAt : Nat
  acceptedAt : Option Nat
deriving DecidableEq

/-- A member row, restricted to the fields the acceptance path touches. -/
structure InvUser where
  id : Nat
  email : String
  displayName : String
  organizationId : Nat
  role : String
  invitedByUserId : Option Nat
deriving DecidableEq

structure InvState where
  invitations : List UserInvitation
  users : List InvUser
  nextId : Nat
deriving DecidableEq

/-- Milliseconds in one day; `expiresAt.setDate(expiresAt.getDate() + 7)`
adds seven calendar days, modelled as seven of these. -/
def msPerDay : Nat := 86400000

namespace UserInvitationRepository

/-- `create`: the random token is passed in (modelling
`crypto.randomBytes(32).toString('hex')`), the expiry is seven days from
the creation instant. -/
def createInvitation (st : InvState) (organizationId : Nat) (email role : String)
    (invitedByUserId : Nat) (invitationToken : String) (now : Nat) :
    UserInvitation × InvState :=
  let invitation : UserInvitation :=
    { id := st.nextId, organizationId := organizationId, email := email, role := role,
      invitedByUserId := invitedByUserId, invitationToken := invitationToken,
      expiresAt := now + 7 * msPerDay, acceptedAt := none }
  (invitation,
    { st with invitations := st.invitations ++ [invitation], nextId := st.nextId + 1 })

/-- `findByToken` (`findUnique` on the token column). -/
def findByToken (st : InvState) (token : String) : Option UserInvitation :=
  st.invitations.find? (fun i => i.invitationToken == token)

/-- `markAsAccepted`: stamp `acceptedAt` on the invitation row. -/
def markAsAccepted (st : InvState) (id : Nat) (now : Nat) : InvState :=
  { st with
    invitations := st.invitations.map (fun i =>
      if i.id = id then { i with acceptedAt := some now } else i) }

/-- `isValid`: unknown token, already accepted (a set `acceptedAt` is
truthy), or expired (`expiresAt < now`) are all invalid. -/
def isValid (st : InvState) (token : String) (now : Nat) : Bool :=
  match findByToken st token with
  | none => false
  | some invitation =>
    if invitation.acceptedAt.isSome then false
    else if invitation.expiresAt < now then false
    else true

end UserInvitationRepository

namespace InvitationService

structure AcceptInvitationDTO where
  displayName : String
  password : String
deriving DecidableEq

/-- `acceptInvitation`: resolve the token, reject an invalid (accepted or
expired) invitation, reject an email already present in the organization,
then create the member and mark the invitation accepted.  Password hashing
and the welcome email are external collaborators and carry no ledger
state. -/
def acceptInvitation (st : InvState) (token : String) (data : AcceptInvitationDTO)
    (now : Nat) : Except String (String × InvState) :=
  match UserInvitationRepository.findByToken st token with
  | none => .error "Invitation not found"
  | some invitation =>
    if !(UserInvitationRepository.isValid st token now) then
      .error "Invitation is invalid or has expired"
    else if st.users.any (fun u =>
        u.email == invitation.email && u.organizationId == invitation.organizationId) then
      .error "A user with this email already exists in this organization"
    else
      let newUser : InvUser :=
        { id := st.nextId, email := invitation.email, displayName := data.displayName,
          organizationId := invitation.organizationId, role := invitation.role,
          invitedByUserId := some invitation.invitedByUserId }
      let st1 : InvState := { st with users := st.users ++ [newUser], nextId := st.nextId + 1 }
      let st2 := UserInvitationRepository.markAsAccepted st1 invitation.id now
      .ok ("Invitation accepted successfully", st2)

end InvitationService

/-! ## Theorems

General-purpose lemmas first, then one theorem per claim (with its witness
or counterexample). -/

theorem toNat_ofNat_valid (n : Nat) (h : n ≤ 0xd7ff) : (Char.ofNat n).toNat = n := by
  have hv : n.isValidChar := Or.inl (by omega)
  simp [Char.ofNat, Char.toNat, Char.ofNatAux, hv]
  rfl

theorem isUpperAlpha_toUpper {c : Char} (h : isAsciiAlpha c = true) :
    isUpperAlpha (Char.toUpper c) = true := by
  simp only [isAsciiAlpha, isUpperAlpha, isLowerAlpha, Bool.or_eq_true, Bool.and_eq_true,
    decide_eq_true_eq] at h
  unfold Char.toUpper
  by_cases hc : c.toNat ≥ 97 ∧ c.toNat ≤ 122
  · rw [if_pos hc]
    have hval : (Char.ofNat (c.toNat - 32)).toNat = c.toNat - 32 :=
      toNat_ofNat_valid _ (by omega)
    simp only [isUpperAlpha, Bool.and_eq_true, decide_eq_true_eq, hval]
    omega
  · rw [if_neg hc]
    simp only [isUpperAlpha, Bool.and_eq_true, decide_eq_true_eq]
    omega

theorem jsSpace_of_isUpperAlpha {c : Char} (h : isUpperAlpha c = true) :
    jsSpace c = false := by
  simp only [isUpperAlpha, Bool.and_eq_true, decide_eq_true_eq] at h
  simp only [jsSpace, Bool.or_eq_false_iff, decide_eq_false_iff_not]
  omega

theorem jsSpace_of_isAsciiAlpha {c : Char} (h : isAsciiAlpha c = true) :
    jsSpace c = false := by
  simp only [isAsciiAlpha, isUpperAlpha, isLowerAlpha, Bool.or_eq_true, Bool.and_eq_true,
    decide_eq_true_eq] at h
  simp only [jsSpace, Bool.or_eq_false_iff, decide_eq_false_iff_not]
  omega

theorem mem_dropWhile_of_mem {α : Type} {p : α → Bool} {c : α} :
    ∀ {l : List α}, c ∈ l → p c = false → c ∈ l.dropWhile p := by
  intro l
  induction l with
  | nil => intro hc; cases hc
  | cons a l ih =>
    intro hc hp
    rw [List.dropWhile_cons]
    by_cases ha : p a = true
    · rw [if_pos ha]
      rcases List.mem_cons.mp hc with rfl | hcl
      · rw [hp] at ha; cases ha
      · exact ih hcl hp
    · rw [if_neg ha]
      exact hc

theorem mem_trimChars {c : Char} {l : List Char} (hc : c ∈ l) (hp : jsSpace c = false) :
    c ∈ trimChars l := by
  unfold trimChars
  rw [List.mem_reverse]
  exact mem_dropWhile_of_mem (List.mem_reverse.mpr (mem_dropWhile_of_mem hc hp)) hp

theorem splitWordsAux_ne_nil :
    ∀ (l acc : List Char), ∀ w ∈ splitWordsAux l acc, w ≠ [] := by
  intro l
  induction l with
  | nil =>
    intro acc w hw
    unfold splitWordsAux at hw
    by_cases h : acc.isEmpty
    · rw [if_pos h] at hw; cases hw
    · rw [if_neg h] at hw
      rcases List.mem_singleton.mp hw with rfl
      simp only [ne_eq, List.reverse_eq_nil_iff]
      intro hacc
      rw [hacc] at h
      exact h rfl
  | cons a l ih =>
    intro acc w hw
    unfold splitWordsAux at hw
    by_cases ha : jsSpace a = true
    · rw [if_pos ha] at hw
      by_cases hacc : acc.isEmpty
      · rw [if_pos hacc] at hw
        exact ih [] w hw
      · rw [if_neg hacc] at hw
        rcases List.mem_cons.mp hw with rfl | hwl
        · simp only [ne_eq, List.reverse_eq_nil_iff]
          intro h
          rw [h] at hacc
          exact hacc rfl
        · exact ih [] w hwl
    · rw [if_neg ha] at hw
      exact ih (a :: acc) w hw

theorem splitWordsAux_chars (P : Char → Prop) :
    ∀ (l acc : List Char), (∀ c ∈ l, jsSpace c = false → P c) → (∀ c ∈ acc, P c) →
      ∀ w ∈ splitWordsAux l acc, ∀ c ∈ w, P c := by
  intro l
  induction l with
  | nil =>
    intro acc _ hacc w hw c hc
    unfold splitWordsAux at hw
    by_cases h : acc.isEmpty
    · rw [if_pos h] at hw; cases hw
    · rw [if_neg h] at hw
      rcases List.mem_singleton.mp hw with rfl
      exact hacc c (List.mem_reverse.mp hc)
  | cons a l ih =>
    intro acc hl hacc w hw c hc
    unfold splitWordsAux at hw
    by_cases ha : jsSpace a = true
    · rw [if_pos ha] at hw
      have hl' : ∀ c ∈ l, jsSpace c = false → P c := fun c hc => hl c (List.mem_cons_of_mem _ hc)
      by_cases haccE : acc.isEmpty
      · rw [if_pos haccE] at hw
        exact ih [] hl' (by intro c hc; cases hc) w hw c hc
      · rw [if_neg haccE] at hw
        rcases List.mem_cons.mp hw with rfl | hwl
        · exact hacc c (List.mem_reverse.mp hc)
        · exact ih [] hl' (by intro c hc; cases hc) w hwl c hc
    · rw [if_neg ha] at hw
      have hl' : ∀ c ∈ l, jsSpace c = false → P c := fun c hc => hl c (List.mem_cons_of_mem _ hc)
      have hacc' : ∀ c ∈ a :: acc, P c := by
        intro c hc
        rcases List.mem_cons.mp hc with rfl | hc
        · exact hl c (List.mem_cons_self c l) (by simpa using ha)
        · exact hacc c hc
      exact ih (a :: acc) hl' hacc' w hw c hc

theorem splitWordsAux_ne_nil_of_mem :
    ∀ (l acc : List Char), (¬ acc.isEmpty = true ∨ ∃ c ∈ l, jsSpace c = false) →
      splitWordsAux l acc ≠ [] := by
  intro l
  induction l with
  | nil =>
    intro acc h
    unfold splitWordsAux
    rcases h with h | ⟨c, hc, _⟩
    · rw [if_neg h]
      exact List.cons_ne_nil _ _
    · cases hc
  | cons a l ih =>
    intro acc h
    unfold splitWordsAux
    by_cases ha : jsSpace a = true
    · rw [if_pos ha]
      by_cases hacc : acc.isEmpty
      · rw [if_pos hacc]
        have hl : ∃ c ∈ l, jsSpace c = false := by
          rcases h with h | ⟨c, hc, hcs⟩
          · exact absurd hacc h
          · rcases List.mem_cons.mp hc with rfl | hcl
            · rw [ha] at hcs; cases hcs
            · exact ⟨c, hcl, hcs⟩
        exact ih [] (Or.inr hl)
      · rw [if_neg hacc]
        exact List.cons_ne_nil _ _
    · rw [if_neg ha]
      exact ih (a :: acc) (Or.inl (by simp))

theorem length_mk (l : List Char) : (String.mk l).length = l.length := rfl

theorem toList_mk (l : List Char) : (String.mk l).toList = l := rfl

theorem orgWords_chars (name : String) :
    ∀ w ∈ orgWords name, w ≠ [] ∧ ∀ c ∈ w, isUpperAlpha c = true := by
  intro w hw
  refine ⟨splitWordsAux_ne_nil _ [] w hw, ?_⟩
  refine splitWordsAux_chars (fun c => isUpperAlpha c = true) _ [] ?_ (by intro c hc; cases hc)
    w hw
  intro c hc hs
  have hp := (List.mem_filter.mp hc).2
  rcases Bool.or_eq_true_iff.mp hp with h | h
  · exact h
  · rw [hs] at h; cases h

theorem orgWords_ne_nil {name : String} (h : ∃ c ∈ name.toList, isAsciiAlpha c = true) :
    trimChars name.toList ≠ [] ∧ orgWords name ≠ [] := by
  obtain ⟨c0, hc0, halpha⟩ := h
  have hns : jsSpace c0 = false := jsSpace_of_isAsciiAlpha halpha
  have htrim : c0 ∈ trimChars name.toList := mem_trimChars hc0 hns
  have hup : Char.toUpper c0 ∈ upperChars (trimChars name.toList) := by
    unfold upperChars
    exact List.mem_map_of_mem Char.toUpper htrim
  have hupA : isUpperAlpha (Char.toUpper c0) = true := isUpperAlpha_toUpper halpha
  have hkeep : Char.toUpper c0 ∈ keepAlphaSpace (upperChars (trimChars name.toList)) :=
    List.mem_filter.mpr ⟨hup, by rw [Bool.or_eq_true_iff]; exact Or.inl hupA⟩
  refine ⟨List.ne_nil_of_mem htrim, ?_⟩
  exact splitWordsAux_ne_nil_of_mem _ []
    (Or.inr ⟨Char.toUpper c0, hkeep, jsSpace_of_isUpperAlpha hupA⟩)

theorem generateOrgInitials_eq (name : String) (htrim : trimChars name.toList ≠ []) :
    generateOrgInitials name =
      match orgWords name with
      | [] => .error "Organization name must contain at least one alphabetic character"
      | [word] => .ok (String.mk (if word.length ≥ 3 then word.take 3 else word))
      | [w1, w2] => .ok (String.mk (w1.take 1 ++ w2.take 1))
      | words => .ok (String.mk (((words.map (fun w => w.take 1)).flatten).take 4)) := by
  unfold generateOrgInitials
  rw [if_neg htrim]

theorem length_flatten_take1 :
    ∀ ws : List (List Char), (∀ w ∈ ws, w ≠ []) →
      ((ws.map (fun w => w.take 1)).flatten).length = ws.length := by
  intro ws
  induction ws with
  | nil => intro; rfl
  | cons w rest ih =>
    intro h
    have hw : w ≠ [] := h w (List.mem_cons_self w rest)
    have hlen : (w.take 1).length = 1 := by
      rw [List.length_take]
      have := List.length_pos.mpr hw
      omega
    simp only [List.map_cons, List.flatten_cons, List.length_append, List.length_cons, hlen,
      ih (fun x hx => h x (List.mem_cons_of_mem _ hx))]
    omega

theorem mem_flatten_take1 {ws : List (List Char)} {c : Char}
    (hc : c ∈ (ws.map (fun w => w.take 1)).flatten) : ∃ w ∈ ws, c ∈ w := by
  obtain ⟨piece, hpiece, hcp⟩ := List.mem_flatten.mp hc
  obtain ⟨w, hw, rfl⟩ := List.mem_map.mp hpiece
  exact ⟨w, hw, List.take_subset 1 w hcp⟩

/-- C7: for every organization name, `generateOrgInitials` uppercases,
strips non-alphabetic characters, splits on whitespace dropping empty
tokens, fails when zero words remain, and otherwise returns the first 3
characters of a single word, the two first letters of exactly two words,
or the first letters of three or more words truncated to 4 characters;
hence for every name containing at least one letter it never throws and
returns 1 to 4 uppercase alphabetic characters. -/
theorem generateOrgInitials_spec (name : String) :
    ((∃ c ∈ name.toList, isAsciiAlpha c = true) →
      ∃ s, generateOrgInitials name = .ok s ∧
        1 ≤ s.length ∧ s.length ≤ 4 ∧
        (∀ c ∈ s.toList, isUpperAlpha c = true) ∧
        (∀ w, orgWords name = [w] →
          s = String.mk (if w.length ≥ 3 then w.take 3 else w)) ∧
        (∀ w1 w2, orgWords name = [w1, w2] → s = String.mk (w1.take 1 ++ w2.take 1)) ∧
        (3 ≤ (orgWords name).length →
          s = String.mk ((((orgWords name).map (fun w => w.take 1)).flatten).take 4))) ∧
    (trimChars name.toList ≠ [] → orgWords name = [] →
      generateOrgInitials name =
        .error "Organization name must contain at least one alphabetic character") := by
  constructor
  · intro h
    obtain ⟨htrim, hwne⟩ := orgWords_ne_nil h
    rcases hws : orgWords name with _ | ⟨w, rest⟩
    · exact absurd hws hwne
    rcases rest with _ | ⟨w2, rest2⟩
    · -- exactly one word
      obtain ⟨hwn, hwu⟩ := orgWords_chars name w (by rw [hws]; exact List.mem_singleton.mpr rfl)
      refine ⟨String.mk (if w.length ≥ 3 then w.take 3 else w), ?_, ?_, ?_, ?_, ?_, ?_, ?_⟩
      · rw [generateOrgInitials_eq name htrim, hws]
      · rw [length_mk]
        by_cases h3 : w.length ≥ 3
        · rw [if_pos h3, List.length_take]; omega
        · rw [if_neg h3]
          have := List.length_pos.mpr hwn
          omega
      · rw [length_mk]
        by_cases h3 : w.length ≥ 3
        · rw [if_pos h3, List.length_take]; omega
        · rw [if_neg h3]; omega
      · intro c hc
        rw [toList_mk] at hc
        by_cases h3 : w.length ≥ 3
        · rw [if_pos h3] at hc
          exact hwu c (List.take_subset 3 w hc)
        · rw [if_neg h3] at hc
          exact hwu c hc
      · intro w' hw'
        injection hw' with h1 _
        rw [h1]
      · intro w1' w2' hw'
        cases hw'
      · intro h3
        simp at h3
    rcases rest2 with _ | ⟨w3, rest3⟩
    · -- exactly two words
      obtain ⟨hw1n, hw1u⟩ := orgWords_chars name w (by rw [hws]; simp)
      obtain ⟨hw2n, hw2u⟩ := orgWords_chars name w2 (by rw [hws]; simp)
      have hlen1 : (w.take 1).length = 1 := by
        rw [List.length_take]
        have := List.length_pos.mpr hw1n
        omega
      have hlen2 : (w2.take 1).length = 1 := by
        rw [List.length_take]
        have := List.length_pos.mpr hw2n
        omega
      refine ⟨String.mk (w.take 1 ++ w2.take 1), ?_, ?_, ?_, ?_, ?_, ?_, ?_⟩
      · rw [generateOrgInitials_eq name htrim, hws]
      · rw [length_mk, List.length_append, hlen1, hlen2]; omega
      · rw [length_mk, List.length_append, hlen1, hlen2]; omega
      · intro c hc
        rw [toList_mk] at hc
        rcases List.mem_append.mp hc with hc | hc
        · exact hw1u c (List.take_subset 1 w hc)
        · exact hw2u c (List.take_subset 1 w2 hc)
      · intro w' hw'
        cases hw'
      · intro w1' w2' hw'
        injection hw' with h1 hrest
        injection hrest with h2 _
        rw [h1, h2]
      · intro h3
        simp at h3
    · -- three or more words
      have hall : ∀ x ∈ orgWords name, x ≠ [] := fun x hx => (orgWords_chars name x hx).1
      rw [hws] at hall
      have hflat := length_flatten_take1 (w :: w2 :: w3 :: rest3) hall
      refine ⟨String.mk ((((w :: w2 :: w3 :: rest3).map (fun x => x.take 1)).flatten).take 4),
        ?_, ?_, ?_, ?_, ?_, ?_, ?_⟩
      · rw [generateOrgInitials_eq name htrim, hws]
      · rw [length_mk, List.length_take, hflat]
        simp only [List.length_cons]
        omega
      · rw [length_mk, List.length_take]
        omega
      · intro c hc
        rw [toList_mk] at hc
        obtain ⟨x, hx, hcx⟩ := mem_flatten_take1 (List.take_subset 4 _ hc)
        exact ((orgWords_chars name x (by rw [hws]; exact hx)).2) c hcx
      · intro w' hw'
        cases hw'
      · intro w1' w2' hw'
        injection hw' with _ hrest
        injection hrest with _ hrest2
        cases hrest2
      · intro _
        rfl
  · intro htrim hnil
    rw [generateOrgInitials_eq name htrim, hnil]

/-- C7 witness: the theorem applied at the concrete name "Reus Logistics". -/
theorem generateOrgInitials_spec_witness :
    (∃ c ∈ "Reus Logistics".toList, isAsciiAlpha c = true) ∧
    (∃ s, generateOrgInitials "Reus Logistics" = .ok s ∧
      1 ≤ s.length ∧ s.length ≤ 4 ∧
      (∀ c ∈ s.toList, isUpperAlpha c = true) ∧
      (∀ w, orgWords "Reus Logistics" = [w] →
        s = String.mk (if w.length ≥ 3 then w.take 3 else w)) ∧
      (∀ w1 w2, orgWords "Reus Logistics" = [w1, w2] →
        s = String.mk (w1.take 1 ++ w2.take 1)) ∧
      (3 ≤ (orgWords "Reus Logistics").length →
        s = String.mk ((((orgWords "Reus Logistics").map (fun w => w.take 1)).flatten).take 4))) :=
  ⟨by decide, (generateOrgInitials_spec "Reus Logistics").1 (by decide)⟩

theorem toList_append (s t : String) : (s ++ t).toList = s.toList ++ t.toList := by
  simp only [String.toList]
  exact String.data_append s t

theorem trimChars_subset (l : List Char) : trimChars l ⊆ l := by
  intro c hc
  unfold trimChars at hc
  rw [List.mem_reverse] at hc
  have h1 := (List.dropWhile_sublist _).subset hc
  rw [List.mem_reverse] at h1
  exact (List.dropWhile_sublist _).subset h1

theorem splitOnHyphenAux_no_hyphen :
    ∀ (l acc : List Char), '-' ∉ l → splitOnHyphenAux l acc = [acc.reverse ++ l] := by
  intro l
  induction l with
  | nil =>
    intro acc _
    unfold splitOnHyphenAux
    rw [List.append_nil]
  | cons c cs ih =>
    intro acc h
    have hc : ¬ c = '-' := fun hcc => h (hcc ▸ List.mem_cons_self c cs)
    unfold splitOnHyphenAux
    rw [if_neg hc, ih (c :: acc) (fun hmem => h (List.mem_cons_of_mem c hmem))]
    simp

theorem splitOnHyphenAux_append :
    ∀ (a : List Char) (b acc : List Char), '-' ∉ a →
      splitOnHyphenAux (a ++ '-' :: b) acc = (acc.reverse ++ a) :: splitOnHyphen b := by
  intro a
  induction a with
  | nil =>
    intro b acc _
    rw [List.nil_append]
    unfold splitOnHyphenAux splitOnHyphen
    rw [if_pos rfl, List.append_nil]
  | cons c cs ih =>
    intro b acc h
    have hc : ¬ c = '-' := fun hcc => h (hcc ▸ List.mem_cons_self c cs)
    show splitOnHyphenAux (c :: (cs ++ '-' :: b)) acc = _
    unfold splitOnHyphenAux
    rw [if_neg hc, ih b (c :: acc) (fun hmem => h (List.mem_cons_of_mem c hmem))]
    simp

theorem intercalate_single (sep x : List Char) : List.intercalate sep [x] = x := by
  simp [List.intercalate]

theorem no_hyphen_of_upper {s : String} (h : ∀ c ∈ s.toList, isUpperAlpha c = true) :
    '-' ∉ s.toList := by
  intro hmem
  have := h '-' hmem
  simp [isUpperAlpha] at this

/-- C8: for every organization name with at least one letter and every
suffix whose trimmed form is non-blank and contains no hyphen, composing
and then parsing the tracking number returns exactly the initials and the
trimmed suffix; `generateTrackingNumber` fails on a blank suffix and
`parseTrackingNumber` fails on an input containing no hyphen. -/
theorem trackingNumber_roundtrip (name suffix : String) :
    ((∃ c ∈ name.toList, isAsciiAlpha c = true) →
      trimChars suffix.toList ≠ [] →
      '-' ∉ suffix.toList →
      ∃ ini, generateOrgInitials name = .ok ini ∧
        generateTrackingNumber name suffix =
          .ok (ini ++ "-" ++ String.mk (trimChars suffix.toList)) ∧
        parseTrackingNumber (ini ++ "-" ++ String.mk (trimChars suffix.toList)) =
          .ok (ini, String.mk (trimChars suffix.toList))) ∧
    ((∃ c ∈ name.toList, isAsciiAlpha c = true) →
      ∀ blank : String, trimChars blank.toList = [] →
        generateTrackingNumber name blank = .error "Tracking number input is required") ∧
    (∀ tn : String, '-' ∉ tn.toList →
      parseTrackingNumber tn =
        .error "Invalid tracking number format. Expected format: ORG-NUMBER") := by
  refine ⟨?_, ?_, ?_⟩
  · intro h hsuf hhyp
    obtain ⟨ini, hini, _, _, hupper, _⟩ := (generateOrgInitials_spec name).1 h
    have hmkne : (String.mk (trimChars suffix.toList)).isEmpty = false := by
      rw [Bool.eq_false_iff]
      intro hemp
      rw [String.isEmpty_iff] at hemp
      have h2 := congrArg String.toList hemp
      rw [toList_mk] at h2
      exact hsuf h2
    refine ⟨ini, hini, ?_, ?_⟩
    · unfold generateTrackingNumber
      rw [hini]
      simp only [hmkne, Bool.false_eq_true, if_false]
    · have hiniNoHyphen : '-' ∉ ini.toList := no_hyphen_of_upper hupper
      have htrimNoHyphen : '-' ∉ trimChars suffix.toList :=
        fun hmem => hhyp (trimChars_subset suffix.toList hmem)
      unfold parseTrackingNumber
      have hlist : (ini ++ "-" ++ String.mk (trimChars suffix.toList)).toList =
          ini.toList ++ '-' :: trimChars suffix.toList := by
        rw [toList_append, toList_append, toList_mk]
        simp
      rw [hlist]
      unfold splitOnHyphen
      rw [splitOnHyphenAux_append ini.toList _ [] hiniNoHyphen]
      unfold splitOnHyphen
      rw [splitOnHyphenAux_no_hyphen _ [] htrimNoHyphen]
      simp only [List.reverse_nil, List.nil_append, intercalate_single]
      rfl
  · intro h blank hblank
    obtain ⟨ini, hini, _⟩ := (generateOrgInitials_spec name).1 h
    unfold generateTrackingNumber
    rw [hini, hblank]
    rfl
  · intro tn htn
    unfold parseTrackingNumber splitOnHyphen
    rw [splitOnHyphenAux_no_hyphen _ [] htn]

/-- C8 witness: the round trip at `("Reus Logistics", "001")`, the blank
suffix `" "`, and the hyphen-free input `"RL001"`. -/
theorem trackingNumber_roundtrip_witness :
    parseTrackingNumber "RL-001" = .ok ("RL", "001") ∧
    generateTrackingNumber "Reus Logistics" " " = .error "Tracking number input is required" ∧
    parseTrackingNumber "RL001" =
      .error "Invalid tracking number format. Expected format: ORG-NUMBER" := by
  obtain ⟨h1, h2, h3⟩ := trackingNumber_roundtrip "Reus Logistics" "001"
  refine ⟨?_, h2 (by decide) " " (by decide), h3 "RL001" (by decide)⟩
  obtain ⟨ini, hini, _, hparse⟩ := h1 (by decide) (by decide) (by decide)
  have hRL : ini = "RL" := by
    have he : generateOrgInitials "Reus Logistics" = .ok "RL" := rfl
    rw [he] at hini
    exact (Except.ok.inj hini).symm
  rw [hRL] at hparse
  exact hparse

/-! Sorting and recalculation lemmas. -/

theorem mem_sortByTimestampDesc {e : TravelEvent} {l : List TravelEvent} :
    e ∈ sortByTimestampDesc l ↔ e ∈ l :=
  (List.perm_insertionSort tsDescRel l).mem_iff

theorem sortByTimestampDesc_eq_nil {l : List TravelEvent} :
    sortByTimestampDesc l = [] ↔ l = [] := by
  constructor
  · intro h
    have p := List.perm_insertionSort tsDescRel l
    unfold sortByTimestampDesc at h
    rw [h] at p
    exact p.symm.eq_nil
  · intro h
    rw [h]
    rfl

theorem sorted_sortByTimestampDesc (l : List TravelEvent) :
    List.Sorted tsDescRel (sortByTimestampDesc l) :=
  List.sorted_insertionSort tsDescRel l

theorem travelEventsOf_eq_of_events {st st' : LedgerState} (h : st'.events = st.events)
    (x : Nat) : ShipmentRepository.travelEventsOf st' x = ShipmentRepository.travelEventsOf st x := by
  unfold ShipmentRepository.travelEventsOf
  rw [h]

theorem updateStatus_events (st : LedgerState) (sid : Nat) (status : String) :
    (ShipmentRepository.updateStatus st sid status).events = st.events := rfl

theorem updateStatus_shipments (st : LedgerState) (sid : Nat) (status : String) :
    (ShipmentRepository.updateStatus st sid status).shipments =
      st.shipments.map (fun s => if s.id = sid then { s with currentStatus := status } else s) :=
  rfl

theorem recalculate_eq (st : LedgerState) (sid : Nat) :
    ShipmentService.recalculateShipmentStatus st sid =
      match sortByTimestampDesc (ShipmentRepository.findTravelEventsByShipment st sid) with
      | [] => ShipmentRepository.updateStatus st sid "Created"
      | latestEvent :: _ => ShipmentRepository.updateStatus st sid latestEvent.status := rfl

theorem recalculate_events (st : LedgerState) (sid : Nat) :
    (ShipmentService.recalculateShipmentStatus st sid).events = st.events := by
  rw [recalculate_eq]
  cases sortByTimestampDesc (ShipmentRepository.findTravelEventsByShipment st sid) with
  | nil => rfl
  | cons e r => rfl

theorem recalculate_orgs (st : LedgerState) (sid : Nat) :
    (ShipmentService.recalculateShipmentStatus st sid).orgs = st.orgs := by
  rw [recalculate_eq]
  cases sortByTimestampDesc (ShipmentRepository.findTravelEventsByShipment st sid) with
  | nil => rfl
  | cons e r => rfl

theorem recalculate_nextId (st : LedgerState) (sid : Nat) :
    (ShipmentService.recalculateShipmentStatus st sid).nextId = st.nextId := by
  rw [recalculate_eq]
  cases sortByTimestampDesc (ShipmentRepository.findTravelEventsByShipment st sid) with
  | nil => rfl
  | cons e r => rfl

/-- The recalculation postcondition: after `recalculateShipmentStatus`,
the recalculated shipment satisfies the full status invariant. -/
theorem recalculate_statusInvariant (st : LedgerState) (sid : Nat) :
    statusInvariant (ShipmentService.recalculateShipmentStatus st sid) sid := by
  intro s hs hsid
  have hevents := recalculate_events st sid
  have hto := travelEventsOf_eq_of_events hevents sid
  rcases hsort : sortByTimestampDesc (ShipmentRepository.findTravelEventsByShipment st sid)
    with _ | ⟨latest, rest⟩
  · -- no events remain
    have hnil : ShipmentRepository.travelEventsOf st sid = [] := by
      have h1 : ShipmentRepository.findTravelEventsByShipment st sid = [] :=
        sortByTimestampDesc_eq_nil.mp hsort
      exact sortByTimestampDesc_eq_nil.mp h1
    rw [recalculate_eq, hsort] at hs
    rw [updateStatus_shipments] at hs
    obtain ⟨s0, hs0, hfs⟩ := List.mem_map.mp hs
    constructor
    · intro _
      by_cases hid : s0.id = sid
      · rw [if_pos hid] at hfs
        rw [← hfs]
      · rw [if_neg hid] at hfs
        rw [← hfs] at hsid
        exact absurd hsid hid
    · intro hne
      rw [hto, hnil] at hne
      exact absurd rfl hne
  · -- at least one event remains
    have hmem0 : latest ∈ ShipmentRepository.travelEventsOf st sid := by
      have h1 : latest ∈ sortByTimestampDesc (ShipmentRepository.findTravelEventsByShipment st sid) := by
        rw [hsort]; exact List.mem_cons_self latest rest
      have h2 := mem_sortByTimestampDesc.mp h1
      exact mem_sortByTimestampDesc.mp h2
    have hne : ShipmentRepository.travelEventsOf st sid ≠ [] := List.ne_nil_of_mem hmem0
    have hmax : ∀ e' ∈ ShipmentRepository.travelEventsOf st sid,
        e'.timestamp ≤ latest.timestamp := by
      intro e' he'
      have h1 : e' ∈ sortByTimestampDesc (ShipmentRepository.findTravelEventsByShipment st sid) := by
        rw [mem_sortByTimestampDesc, ShipmentRepository.findTravelEventsByShipment,
          mem_sortByTimestampDesc]
        exact he'
      rw [hsort] at h1
      rcases List.mem_cons.mp h1 with rfl | h2
      · exact Nat.le_refl _
      · have hsorted := sorted_sortByTimestampDesc (ShipmentRepository.findTravelEventsByShipment st sid)
        rw [hsort, List.sorted_cons] at hsorted
        exact hsorted.1 e' h2
    rw [recalculate_eq, hsort] at hs
    rw [updateStatus_shipments] at hs
    obtain ⟨s0, hs0, hfs⟩ := List.mem_map.mp hs
    have hstat : s.currentStatus = latest.status := by
      by_cases hid : s0.id = sid
      · rw [if_pos hid] at hfs
        rw [← hfs]
      · rw [if_neg hid] at hfs
        rw [← hfs] at hsid
        exact absurd hsid hid
    constructor
    · intro hnil
      rw [hto] at hnil
      exact absurd hnil hne
    · intro _
      rw [hto]
      exact ⟨latest, hmem0, hmax, hstat⟩

/-- C1 (amended): after `deleteTravelEvent` succeeds (always), and after
`updateTravelEvent` succeeds with a patch carrying a **non-empty** status,
the owning shipment `currentStatus` equals the status of a remaining event
with the latest timestamp, or the sentinel `"Created"` when no events
remain.  (A patch whose status field is the empty string is treated as
absent by the truthiness test and skips recalculation; see the
counterexample.) -/
theorem mutation_recalculates_status (st : LedgerState) (eventId organizationId : Nat)
    (data : UpdateTravelEventDTO) :
    (∀ st', ShipmentService.deleteTravelEvent st eventId organizationId = .ok st' →
      ∃ ev, ShipmentRepository.findTravelEventByIdAndOrganization st eventId organizationId =
          some ev ∧ statusInvariant st' ev.shipmentId) ∧
    (∀ s r st', data.status = some s → s ≠ "" →
      ShipmentService.updateTravelEvent st eventId organizationId data = .ok (r, st') →
      ∃ ev, ShipmentRepository.findTravelEventByIdAndOrganization st eventId organizationId =
          some ev ∧ statusInvariant st' ev.shipmentId) := by
  constructor
  · intro st' hdel
    unfold ShipmentService.deleteTravelEvent at hdel
    rcases hfind : ShipmentRepository.findTravelEventByIdAndOrganization st eventId
        organizationId with _ | ev
    · rw [hfind] at hdel
      cases hdel
    · rw [hfind] at hdel
      have h := Except.ok.inj hdel
      exact ⟨ev, rfl, h ▸ recalculate_statusInvariant _ _⟩
  · intro s r st' hstat hsne hupd
    unfold ShipmentService.updateTravelEvent at hupd
    rcases hfind : ShipmentRepository.findTravelEventByIdAndOrganization st eventId
        organizationId with _ | ev
    · rw [hfind] at hupd
      cases hupd
    · rw [hfind] at hupd
      have htruthy : ShipmentService.jsTruthyStr data.status = true := by
        rw [hstat]
        show (!s.isEmpty) = true
        rcases hemp : s.isEmpty with _ | _
        · rfl
        · exact absurd ((String.isEmpty_iff s).mp hemp) hsne
      have hpair := Except.ok.inj hupd
      have hst' := congrArg Prod.snd hpair
      simp only at hst'
      rw [if_pos htruthy] at hst'
      exact ⟨ev, rfl, hst' ▸ recalculate_statusInvariant _ _⟩

/-- C1 counterexample: a patch containing the status field with the empty
string succeeds, rewrites the (latest) event status to `""`, but leaves
`currentStatus` at the stale `"A"`, so the claimed postcondition fails for
a patch that contains the status field. -/
theorem updateTravelEvent_empty_status_cex :
    ∃ r st',
      ShipmentService.updateTravelEvent
        { orgs := [{ id := 10, name := "Acme Corp" }],
          shipments := [
            { id := 1, trackingNumber := "AC-1", organizationId := 10,
              origin := "A", destination := "B", weight := 1, pieces := 1,
              currentStatus := "A", company := none, createdByUserId := 7 }],
          events := [
            { id := 2, shipmentId := 1, status := "A", location := "L",
              description := "", timestamp := 5, eventType := "in-transit",
              createdByUserId := none }],
          nextId := 3 }
        2 10 { status := some "", location := none, description := none, eventType := none } =
        .ok (r, st') ∧
      st'.events.map (fun e => e.status) = [""] ∧
      st'.shipments.map (fun s => s.currentStatus) = ["A"] ∧
      ("A" : String) ≠ "" := by
  refine ⟨_, _, rfl, rfl, rfl, by decide⟩

/-- C1 witness: the spec scenario — events with statuses `"A"` (t=1),
`"B"` (t=3), `"C"` (t=2); deleting the `"B"` event recalculates, and the
resulting state satisfies the status invariant for the shipment. -/
theorem mutation_recalculates_status_witness :
    ∃ st', ShipmentService.deleteTravelEvent
        { orgs := [{ id := 10, name := "Acme Corp" }],
          shipments := [
            { id := 1, trackingNumber := "AC-1", organizationId := 10,
              origin := "A", destination := "B", weight := 1, pieces := 1,
              currentStatus := "B", company := none, createdByUserId := 7 }],
          events := [
            { id := 2, shipmentId := 1, status := "A", location := "L",
              description := "", timestamp := 1, eventType := "picked-up",
              createdByUserId := none },
            { id := 3, shipmentId := 1, status := "B", location := "L",
              description := "", timestamp := 3, eventType := "in-transit",
              createdByUserId := none },
            { id := 4, shipmentId := 1, status := "C", location := "L",
              description := "", timestamp := 2, eventType := "at-facility",
              createdByUserId := none }],
          nextId := 5 } 3 10 = Except.ok st' ∧
      ∃ ev, ShipmentRepository.findTravelEventByIdAndOrganization
        { orgs := [{ id := 10, name := "Acme Corp" }],
          shipments := [
            { id := 1, trackingNumber := "AC-1", organizationId := 10,
              origin := "A", destination := "B", weight := 1, pieces := 1,
              currentStatus := "B", company := none, createdByUserId := 7 }],
          events := [
            { id := 2, shipmentId := 1, status := "A", location := "L",
              description := "", timestamp := 1, eventType := "picked-up",
              createdByUserId := none },
            { id := 3, shipmentId := 1, status := "B", location := "L",
              description := "", timestamp := 3, eventType := "in-transit",
              createdByUserId := none },
            { id := 4, shipmentId := 1, status := "C", location := "L",
              description := "", timestamp := 2, eventType := "at-facility",
              createdByUserId := none }],
          nextId := 5 } 3 10 = some ev ∧ statusInvariant st' ev.shipmentId := by
  refine ⟨_, rfl, ?_⟩
  exact (mutation_recalculates_status _ 3 10
    { status := none, location := none, description := none, eventType := none }).1 _ rfl

theorem findByIdAndOrganization_eq_none {st : LedgerState} {sid orgId : Nat}
    (h : ∀ s ∈ st.shipments, ¬(s.id = sid ∧ s.organizationId = orgId)) :
    ShipmentRepository.findByIdAndOrganization st sid orgId = none := by
  unfold ShipmentRepository.findByIdAndOrganization
  rw [List.find?_eq_none]
  intro x hx
  simp only [Bool.and_eq_true, beq_iff_eq]
  exact h x hx

theorem addTravelEvent_not_found {st : LedgerState} {sid orgId : Nat}
    {data : CreateTravelEventDTO} {u : Option Nat} {now : Nat}
    (h : ShipmentRepository.findByIdAndOrganization st sid orgId = none) :
    ShipmentService.addTravelEvent st sid orgId data u now = .error "Shipment not found" := by
  unfold ShipmentService.addTravelEvent
  rw [h]

/-- C3: when the shipment exists in the caller organization,
`addTravelEvent` appends an event whose timestamp is the server clock
`now` (the DTO has no timestamp field) and unconditionally overwrites the
shipment `currentStatus` with the status of the new event, for every state
and hence regardless of the timestamps of the existing events. -/
theorem addTravelEvent_spec (st : LedgerState) (shipmentId organizationId : Nat)
    (data : CreateTravelEventDTO) (createdByUserId : Option Nat) (now : Nat) (s0 : Shipment)
    (hfind : ShipmentRepository.findByIdAndOrganization st shipmentId organizationId = some s0) :
    ∃ ev st',
      ShipmentService.addTravelEvent st shipmentId organizationId data createdByUserId now =
        .ok (ShipmentService.formatTravelEvent ev, st') ∧
      ev.timestamp = now ∧ ev.status = data.status ∧ ev.shipmentId = shipmentId ∧
      st'.events = st.events ++ [ev] ∧
      (∀ s' ∈ st'.shipments, s'.id = shipmentId → s'.currentStatus = data.status) ∧
      (∀ s' ∈ st'.shipments, s'.id ≠ shipmentId → s' ∈ st.shipments) := by
  unfold ShipmentService.addTravelEvent
  rw [hfind]
  refine ⟨{ id := st.nextId, shipmentId := shipmentId, status := data.status,
            location := data.location, description := data.description.getD "",
            timestamp := now, eventType := data.eventType,
            createdByUserId := createdByUserId },
    _, rfl, rfl, rfl, rfl, rfl, ?_, ?_⟩
  · intro s' hs' hid
    rw [updateStatus_shipments] at hs'
    obtain ⟨s1, _, hfs⟩ := List.mem_map.mp hs'
    by_cases h1 : s1.id = shipmentId
    · rw [if_pos h1] at hfs
      rw [← hfs]
    · rw [if_neg h1] at hfs
      rw [← hfs] at hid
      exact absurd hid h1
  · intro s' hs' hid
    rw [updateStatus_shipments] at hs'
    obtain ⟨s1, hmem, hfs⟩ := List.mem_map.mp hs'
    by_cases h1 : s1.id = shipmentId
    · rw [if_pos h1] at hfs
      rw [← hfs] at hid
      exact absurd h1 hid
    · rw [if_neg h1] at hfs
      rw [← hfs]
      exact hmem

/-- C3 witness: appending an `"in-transit"` event at time 9 to a shipment
with an existing later-timestamped event still overwrites the status. -/
theorem addTravelEvent_spec_witness :
    ∃ ev st',
      ShipmentService.addTravelEvent
        { orgs := [{ id := 10, name := "Acme Corp" }],
          shipments := [
            { id := 1, trackingNumber := "AC-1", organizationId := 10,
              origin := "A", destination := "B", weight := 1, pieces := 1,
              currentStatus := "delivered", company := none, createdByUserId := 7 }],
          events := [
            { id := 2, shipmentId := 1, status := "delivered", location := "L",
              description := "", timestamp := 100, eventType := "delivered",
              createdByUserId := none }],
          nextId := 3 } 1 10
        { status := "in-transit", location := "L2", description := none,
          eventType := "in-transit" } (some 7) 9 =
        .ok (ShipmentService.formatTravelEvent ev, st') ∧
      ev.timestamp = 9 ∧ ev.status = "in-transit" ∧ ev.shipmentId = 1 ∧
      st'.events =
        ({ orgs := [{ id := 10, name := "Acme Corp" }],
           shipments := [
             { id := 1, trackingNumber := "AC-1", organizationId := 10,
               origin := "A", destination := "B", weight := 1, pieces := 1,
               currentStatus := "delivered", company := none, createdByUserId := 7 }],
           events := [
             { id := 2, shipmentId := 1, status := "delivered", location := "L",
               description := "", timestamp := 100, eventType := "delivered",
               createdByUserId := none }],
           nextId := 3 } : LedgerState).events ++ [ev] ∧
      (∀ s' ∈ st'.shipments, s'.id = 1 → s'.currentStatus = "in-transit") ∧
      (∀ s' ∈ st'.shipments, s'.id ≠ 1 →
        s' ∈ ({ orgs := [{ id := 10, name := "Acme Corp" }],
                shipments := [
                  { id := 1, trackingNumber := "AC-1", organizationId := 10,
                    origin := "A", destination := "B", weight := 1, pieces := 1,
                    currentStatus := "delivered", company := none, createdByUserId := 7 }],
                events := [
                  { id := 2, shipmentId := 1, status := "delivered", location := "L",
                    description := "", timestamp := 100, eventType := "delivered",
                    createdByUserId := none }],
                nextId := 3 } : LedgerState).shipments) :=
  addTravelEvent_spec _ 1 10
    { status := "in-transit", location := "L2", description := none,
      eventType := "in-transit" } (some 7) 9 _ rfl

/-- C4: `addTravelEvent` on a shipment that exists but belongs to a
different organization fails with exactly the same error as on a shipment
id that does not exist at all, so the caller cannot distinguish the two
outcomes. -/
theorem addTravelEvent_tenant_indistinguishable (st : LedgerState)
    (shipmentId otherId organizationId : Nat) (data data' : CreateTravelEventDTO)
    (u u' : Option Nat) (now now' : Nat)
    (_hexists : ∃ s ∈ st.shipments, s.id = shipmentId ∧ s.organizationId ≠ organizationId)
    (hnotMine : ∀ s ∈ st.shipments, ¬(s.id = shipmentId ∧ s.organizationId = organizationId))
    (hmissing : ∀ s ∈ st.shipments, s.id ≠ otherId) :
    ShipmentService.addTravelEvent st shipmentId organizationId data u now =
      .error "Shipment not found" ∧
    ShipmentService.addTravelEvent st otherId organizationId data' u' now' =
      .error "Shipment not found" ∧
    ShipmentService.addTravelEvent st shipmentId organizationId data u now =
      ShipmentService.addTravelEvent st otherId organizationId data' u' now' := by
  have h1 : ShipmentService.addTravelEvent st shipmentId organizationId data u now =
      .error "Shipment not found" :=
    addTravelEvent_not_found (findByIdAndOrganization_eq_none hnotMine)
  have h2 : ShipmentService.addTravelEvent st otherId organizationId data' u' now' =
      .error "Shipment not found" :=
    addTravelEvent_not_found (findByIdAndOrganization_eq_none
      (fun s hs hc => hmissing s hs hc.1))
  exact ⟨h1, h2, h1.trans h2.symm⟩

/-- C4 witness: a shipment of organization 20 queried by organization 10,
and a nonexistent shipment id, produce the same error. -/
theorem addTravelEvent_tenant_indistinguishable_witness :
    ShipmentService.addTravelEvent
      { orgs := [{ id := 10, name := "Acme Corp" }, { id := 20, name := "Beta Freight" }],
        shipments := [
          { id := 1, trackingNumber := "BF-1", organizationId := 20,
            origin := "A", destination := "B", weight := 1, pieces := 1,
            currentStatus := "pending", company := none, createdByUserId := 7 }],
        events := [], nextId := 2 } 1 10
      { status := "x", location := "L", description := none, eventType := "in-transit" }
      none 5 = .error "Shipment not found" ∧
    ShipmentService.addTravelEvent
      { orgs := [{ id := 10, name := "Acme Corp" }, { id := 20, name := "Beta Freight" }],
        shipments := [
          { id := 1, trackingNumber := "BF-1", organizationId := 20,
            origin := "A", destination := "B", weight := 1, pieces := 1,
            currentStatus := "pending", company := none, createdByUserId := 7 }],
        events := [], nextId := 2 } 99 10
      { status := "y", location := "L", description := none, eventType := "in-transit" }
      none 6 = .error "Shipment not found" := by
  have h := addTravelEvent_tenant_indistinguishable
    { orgs := [{ id := 10, name := "Acme Corp" }, { id := 20, name := "Beta Freight" }],
      shipments := [
        { id := 1, trackingNumber := "BF-1", organizationId := 20,
          origin := "A", destination := "B", weight := 1, pieces := 1,
          currentStatus := "pending", company := none, createdByUserId := 7 }],
      events := [], nextId := 2 } 1 99 10
    { status := "x", location := "L", description := none, eventType := "in-transit" }
    { status := "y", location := "L", description := none, eventType := "in-transit" }
    none none 5 6 (by decide) (by decide) (by decide)
  exact ⟨h.1, h.2.1⟩

/-- C10: `updateTravelEvent` never changes an event id, owning shipment
reference, timestamp or creator (the patch admits only status, location,
description and eventType), and an update whose patch omits the status
field leaves every shipment — in particular `currentStatus` — unchanged. -/
theorem updateTravelEvent_frame (st : LedgerState) (eventId organizationId : Nat)
    (data : UpdateTravelEventDTO) :
    (∀ e, (ShipmentRepository.applyEventPatch e data).timestamp = e.timestamp ∧
      (ShipmentRepository.applyEventPatch e data).shipmentId = e.shipmentId ∧
      (ShipmentRepository.applyEventPatch e data).id = e.id ∧
      (ShipmentRepository.applyEventPatch e data).createdByUserId = e.createdByUserId) ∧
    (∀ r st', ShipmentService.updateTravelEvent st eventId organizationId data = .ok (r, st') →
      st'.events.map (fun e => (e.id, e.shipmentId, e.timestamp, e.createdByUserId)) =
        st.events.map (fun e => (e.id, e.shipmentId, e.timestamp, e.createdByUserId)) ∧
      (data.status = none → st'.shipments = st.shipments ∧
        st'.events.map (fun e => e.status) = st.events.map (fun e => e.status))) := by
  refine ⟨fun e => ⟨rfl, rfl, rfl, rfl⟩, ?_⟩
  intro r st' hupd
  unfold ShipmentService.updateTravelEvent at hupd
  rcases hfind : ShipmentRepository.findTravelEventByIdAndOrganization st eventId
      organizationId with _ | ev
  · rw [hfind] at hupd
    cases hupd
  · rw [hfind] at hupd
    have hpair := Except.ok.inj hupd
    have hst' : (if ShipmentService.jsTruthyStr data.status = true then
        ShipmentService.recalculateShipmentStatus
          (ShipmentRepository.updateTravelEventRow st eventId data) ev.shipmentId
      else ShipmentRepository.updateTravelEventRow st eventId data) = st' :=
      congrArg Prod.snd hpair
    have hrowEvents : (ShipmentRepository.updateTravelEventRow st eventId data).events =
        st.events.map (fun e => if e.id = eventId then
          ShipmentRepository.applyEventPatch e data else e) := rfl
    have hevents : st'.events = st.events.map (fun e => if e.id = eventId then
        ShipmentRepository.applyEventPatch e data else e) := by
      rw [← hst']
      by_cases ht : ShipmentService.jsTruthyStr data.status = true
      · rw [if_pos ht, recalculate_events, hrowEvents]
      · rw [if_neg ht, hrowEvents]
    constructor
    · rw [hevents, List.map_map]
      refine List.map_congr_left ?_
      intro e _
      by_cases h1 : e.id = eventId
      · simp only [Function.comp, if_pos h1]
        rfl
      · simp only [Function.comp, if_neg h1]
    · intro hnone
      have hfalse : ShipmentService.jsTruthyStr data.status = false := by
        rw [hnone]
        rfl
      constructor
      · rw [← hst', if_neg (by rw [hfalse]; intro hc; cases hc)]
        rfl
      · rw [hevents, List.map_map]
        refine List.map_congr_left ?_
        intro e _
        by_cases h1 : e.id = eventId
        · simp only [Function.comp, if_pos h1]
          unfold ShipmentRepository.applyEventPatch
          rw [hnone]
          rfl
        · simp only [Function.comp, if_neg h1]

/-- C10 witness: patching only the location of an event leaves the event
timestamp, owning shipment and every shipment row unchanged. -/
theorem updateTravelEvent_frame_witness :
    ({ orgs := [{ id := 10, name := "Acme Corp" }],
       shipments := [
         { id := 1, trackingNumber := "AC-1", organizationId := 10,
           origin := "A", destination := "B", weight := 1, pieces := 1,
           currentStatus := "pending", company := none, createdByUserId := 7 }],
       events := [
         { id := 2, shipmentId := 1, status := "pending", location := "L2",
           description := "", timestamp := 5, eventType := "picked-up",
           createdByUserId := none }],
       nextId := 3 } : LedgerState).events.map
        (fun e => (e.id, e.shipmentId, e.timestamp, e.createdByUserId)) =
      ({ orgs := [{ id := 10, name := "Acme Corp" }],
         shipments := [
           { id := 1, trackingNumber := "AC-1", organizationId := 10,
             origin := "A", destination := "B", weight := 1, pieces := 1,
             currentStatus := "pending", company := none, createdByUserId := 7 }],
         events := [
           { id := 2, shipmentId := 1, status := "pending", location := "L",
             description := "", timestamp := 5, eventType := "picked-up",
             createdByUserId := none }],
         nextId := 3 } : LedgerState).events.map
        (fun e => (e.id, e.shipmentId, e.timestamp, e.createdByUserId)) ∧
    (({ status := none, location := some "L2", description := none,
        eventType := none } : UpdateTravelEventDTO).status = none →
      ({ orgs := [{ id := 10, name := "Acme Corp" }],
         shipments := [
           { id := 1, trackingNumber := "AC-1", organizationId := 10,
             origin := "A", destination := "B", weight := 1, pieces := 1,
             currentStatus := "pending", company := none, createdByUserId := 7 }],
         events := [
           { id := 2, shipmentId := 1, status := "pending", location := "L2",
             description := "", timestamp := 5, eventType := "picked-up",
             createdByUserId := none }],
         nextId := 3 } : LedgerState).shipments =
        ({ orgs := [{ id := 10, name := "Acme Corp" }],
           shipments := [
             { id := 1, trackingNumber := "AC-1", organizationId := 10,
               origin := "A", destination := "B", weight := 1, pieces := 1,
               currentStatus := "pending", company := none, createdByUserId := 7 }],
           events := [
             { id := 2, shipmentId := 1, status := "pending", location := "L",
               description := "", timestamp := 5, eventType := "picked-up",
               createdByUserId := none }],
           nextId := 3 } : LedgerState).shipments ∧
      ({ orgs := [{ id := 10, name := "Acme Corp" }],
         shipments := [
           { id := 1, trackingNumber := "AC-1", organizationId := 10,
             origin := "A", destination := "B", weight := 1, pieces := 1,
             currentStatus := "pending", company := none, createdByUserId := 7 }],
         events := [
           { id := 2, shipmentId := 1, status := "pending", location := "L2",
             description := "", timestamp := 5, eventType := "picked-up",
             createdByUserId := none }],
         nextId := 3 } : LedgerState).events.map (fun e => e.status) =
        ({ orgs := [{ id := 10, name := "Acme Corp" }],
           shipments := [
             { id := 1, trackingNumber := "AC-1", organizationId := 10,
               origin := "A", destination := "B", weight := 1, pieces := 1,
               currentStatus := "pending", company := none, createdByUserId := 7 }],
           events := [
             { id := 2, shipmentId := 1, status := "pending", location := "L",
               description := "", timestamp := 5, eventType := "picked-up",
               createdByUserId := none }],
           nextId := 3 } : LedgerState).events.map (fun e => e.status)) :=
  (updateTravelEvent_frame
    { orgs := [{ id := 10, name := "Acme Corp" }],
      shipments := [
        { id := 1, trackingNumber := "AC-1", organizationId := 10,
          origin := "A", destination := "B", weight := 1, pieces := 1,
          currentStatus := "pending", company := none, createdByUserId := 7 }],
      events := [
        { id := 2, shipmentId := 1, status := "pending", location := "L",
          description := "", timestamp := 5, eventType := "picked-up",
          createdByUserId := none }],
      nextId := 3 } 2 10
    { status := none, location := some "L2", description := none, eventType := none }).2
    { id := 2, status := "pending", location := "L2", description := "",
      timestamp := 5, type := "picked-up" }
    { orgs := [{ id := 10, name := "Acme Corp" }],
      shipments := [
        { id := 1, trackingNumber := "AC-1", organizationId := 10,
          origin := "A", destination := "B", weight := 1, pieces := 1,
          currentStatus := "pending", company := none, createdByUserId := 7 }],
      events := [
        { id := 2, shipmentId := 1, status := "pending", location := "L2",
          description := "", timestamp := 5, eventType := "picked-up",
          createdByUserId := none }],
      nextId := 3 } rfl

/-- C5: `getByTrackingNumber` applies no organization filter — the public
route result is identical for every caller (any organization, or none) —
and returns the found shipment with its full event list ordered
newest-first by timestamp, or a not-found result exactly when no shipment
carries the tracking number. -/
theorem getByTrackingNumber_spec (st : LedgerState) (trackingNumber : String) :
    (∀ caller caller' : Option Nat,
      ShipmentService.trackByNumber caller st trackingNumber =
        ShipmentService.trackByNumber caller' st trackingNumber) ∧
    (ShipmentService.getByTrackingNumber st trackingNumber = none ↔
      ∀ s ∈ st.shipments, s.trackingNumber ≠ trackingNumber) ∧
    (∀ r, ShipmentService.getByTrackingNumber st trackingNumber = some r →
      ∃ s ∈ st.shipments, s.trackingNumber = trackingNumber ∧
        r = ShipmentService.formatShipmentResponse st s ∧
        r.travelHistory.Pairwise (fun a b => b.timestamp ≤ a.timestamp) ∧
        r.travelHistory.Perm
          ((ShipmentRepository.travelEventsOf st s.id).map ShipmentService.formatTravelEvent)) := by
  refine ⟨fun _ _ => rfl, ?_, ?_⟩
  · unfold ShipmentService.getByTrackingNumber ShipmentRepository.findByTrackingNumber
    rw [Option.map_eq_none', List.find?_eq_none]
    constructor
    · intro h s hs heq
      exact h s hs (by simp [heq])
    · intro h s hs hbeq
      exact h s hs (by simpa using hbeq)
  · intro r hr
    unfold ShipmentService.getByTrackingNumber at hr
    obtain ⟨s, hfind, hfmt⟩ := Option.map_eq_some'.mp hr
    have hmem := List.mem_of_find?_eq_some hfind
    have hpred := List.find?_some hfind
    have htn : s.trackingNumber = trackingNumber := by simpa using hpred
    refine ⟨s, hmem, htn, hfmt.symm, ?_, ?_⟩
    · rw [← hfmt]
      show (List.map ShipmentService.formatTravelEvent
        (ShipmentRepository.findTravelEventsByShipment st s.id)).Pairwise _
      refine List.Pairwise.map _ ?_
        (sorted_sortByTimestampDesc (ShipmentRepository.travelEventsOf st s.id))
      intro a b hab
      exact hab
    · rw [← hfmt]
      show (List.map ShipmentService.formatTravelEvent
        (ShipmentRepository.findTravelEventsByShipment st s.id)).Perm _
      exact (List.perm_insertionSort tsDescRel
        (ShipmentRepository.travelEventsOf st s.id)).map ShipmentService.formatTravelEvent

/-- C5 witness: the same state queried with two different callers (and no
caller) yields one result, found with its two events newest-first; a
missing tracking number yields `none`. -/
theorem getByTrackingNumber_spec_witness :
    ∃ r, ShipmentService.getByTrackingNumber
        { orgs := [{ id := 10, name := "Acme Corp" }],
          shipments := [
            { id := 1, trackingNumber := "AC-1", organizationId := 10,
              origin := "A", destination := "B", weight := 1, pieces := 1,
              currentStatus := "B", company := none, createdByUserId := 7 }],
          events := [
            { id := 2, shipmentId := 1, status := "A", location := "L",
              description := "", timestamp := 1, eventType := "picked-up",
              createdByUserId := none },
            { id := 3, shipmentId := 1, status := "B", location := "L",
              description := "", timestamp := 3, eventType := "in-transit",
              createdByUserId := none }],
          nextId := 4 } "AC-1" = some r ∧
      r.travelHistory.map (fun e => e.timestamp) = [3, 1] ∧
      ShipmentService.trackByNumber (some 20)
        { orgs := [{ id := 10, name := "Acme Corp" }],
          shipments := [
            { id := 1, trackingNumber := "AC-1", organizationId := 10,
              origin := "A", destination := "B", weight := 1, pieces := 1,
              currentStatus := "B", company := none, createdByUserId := 7 }],
          events := [
            { id := 2, shipmentId := 1, status := "A", location := "L",
              description := "", timestamp := 1, eventType := "picked-up",
              createdByUserId := none },
            { id := 3, shipmentId := 1, status := "B", location := "L",
              description := "", timestamp := 3, eventType := "in-transit",
              createdByUserId := none }],
          nextId := 4 } "AC-1" =
      ShipmentService.trackByNumber none
        { orgs := [{ id := 10, name := "Acme Corp" }],
          shipments := [
            { id := 1, trackingNumber := "AC-1", organizationId := 10,
              origin := "A", destination := "B", weight := 1, pieces := 1,
              currentStatus := "B", company := none, createdByUserId := 7 }],
          events := [
            { id := 2, shipmentId := 1, status := "A", location := "L",
              description := "", timestamp := 1, eventType := "picked-up",
              createdByUserId := none },
            { id := 3, shipmentId := 1, status := "B", location := "L",
              description := "", timestamp := 3, eventType := "in-transit",
              createdByUserId := none }],
          nextId := 4 } "AC-1" ∧
      ShipmentService.getByTrackingNumber
        { orgs := [{ id := 10, name := "Acme Corp" }],
          shipments := [
            { id := 1, trackingNumber := "AC-1", organizationId := 10,
              origin := "A", destination := "B", weight := 1, pieces := 1,
              currentStatus := "B", company := none, createdByUserId := 7 }],
          events := [], nextId := 4 } "XX-9" = none := by
  refine ⟨_, rfl, rfl, ?_, ?_⟩
  · exact (getByTrackingNumber_spec
      { orgs := [{ id := 10, name := "Acme Corp" }],
        shipments := [
          { id := 1, trackingNumber := "AC-1", organizationId := 10,
            origin := "A", destination := "B", weight := 1, pieces := 1,
            currentStatus := "B", company := none, createdByUserId := 7 }],
        events := [
          { id := 2, shipmentId := 1, status := "A", location := "L",
            description := "", timestamp := 1, eventType := "picked-up",
            createdByUserId := none },
          { id := 3, shipmentId := 1, status := "B", location := "L",
            description := "", timestamp := 3, eventType := "in-transit",
            createdByUserId := none }],
        nextId := 4 } "AC-1").1 (some 20) none
  · exact (getByTrackingNumber_spec
      { orgs := [{ id := 10, name := "Acme Corp" }],
        shipments := [
          { id := 1, trackingNumber := "AC-1", organizationId := 10,
            origin := "A", destination := "B", weight := 1, pieces := 1,
            currentStatus := "B", company := none, createdByUserId := 7 }],
        events := [], nextId := 4 } "XX-9").2.1.mpr (by decide)

/-- C6: a second `createShipment` with the same suffix in the same
organization fails with the duplicate message, which contains the word
"exists"; `createShipment` with the same suffix in another organization
whose composed tracking number is not already taken there succeeds. -/
theorem createShipment_duplicate_spec (st : LedgerState) (data : CreateShipmentDTO)
    (organizationId u1 u2 : Nat) (resp : ShipmentResponse) (st' : LedgerState)
    (h1 : ShipmentService.createShipment st data organizationId u1 = .ok (resp, st')) :
    (ShipmentService.createShipment st' data organizationId u2 =
        .error "Tracking number already exists in your organization" ∧
      ∃ pre post : String,
        "Tracking number already exists in your organization" =
          pre ++ "exists" ++ post) ∧
    (∀ orgId2 o2 ftn2 u3,
      st'.orgs.find? (fun o => o.id == orgId2) = some o2 →
      generateTrackingNumber o2.name data.trackingNumber = .ok ftn2 →
      (∀ s ∈ st'.shipments, ¬(s.trackingNumber = ftn2 ∧ s.organizationId = orgId2)) →
      ∃ resp2 st2, ShipmentService.createShipment st' data orgId2 u3 = .ok (resp2, st2)) := by
  unfold ShipmentService.createShipment at h1
  rcases horg : st.orgs.find? (fun o => o.id == organizationId) with _ | org
  · rw [horg] at h1; cases h1
  rw [horg] at h1
  dsimp only at h1
  rcases hgen : generateTrackingNumber org.name data.trackingNumber with e | ftn
  · rw [hgen] at h1; cases h1
  rw [hgen] at h1
  dsimp only at h1
  rcases hdup : ShipmentRepository.findByTrackingNumberAndOrganization st ftn organizationId
    with _ | sdup
  swap
  · rw [hdup] at h1; cases h1
  rw [hdup] at h1
  dsimp only at h1
  rcases hre : ShipmentRepository.findByIdAndOrganization
      { st with
        shipments := st.shipments ++
          [{ id := st.nextId, trackingNumber := ftn,
             organizationId := organizationId, origin := data.origin,
             destination := data.destination, weight := data.weight, pieces := data.pieces,
             currentStatus := data.status, company := data.company, createdByUserId := u1 }],
        nextId := st.nextId + 1 } st.nextId organizationId with _ | w
  · rw [hre] at h1; cases h1
  rw [hre] at h1
  have hst' : st' =
      { st with
        shipments := st.shipments ++
          [{ id := st.nextId, trackingNumber := ftn,
             organizationId := organizationId, origin := data.origin,
             destination := data.destination, weight := data.weight, pieces := data.pieces,
             currentStatus := data.status, company := data.company, createdByUserId := u1 }],
        nextId := st.nextId + 1 } :=
    (congrArg Prod.snd (Except.ok.inj h1)).symm
  constructor
  · constructor
    · unfold ShipmentService.createShipment
      have horg' : st'.orgs.find? (fun o => o.id == organizationId) = some org := by
        rw [hst']
        exact horg
      rw [horg']
      dsimp only
      rw [hgen]
      dsimp only
      have hfound : ShipmentRepository.findByTrackingNumberAndOrganization st' ftn
          organizationId =
          some { id := st.nextId, trackingNumber := ftn,
                 organizationId := organizationId, origin := data.origin,
                 destination := data.destination, weight := data.weight,
                 pieces := data.pieces, currentStatus := data.status,
                 company := data.company, createdByUserId := u1 } := by
        rw [hst']
        unfold ShipmentRepository.findByTrackingNumberAndOrganization at hdup ⊢
        simp only [List.find?_append, hdup, Option.none_or]
        rw [List.find?_cons]
        simp
      rw [hfound]
    · exact ⟨"Tracking number already ", " in your organization", rfl⟩
  · intro orgId2 o2 ftn2 u3 horg2 hgen2 hfree2
    unfold ShipmentService.createShipment
    rw [horg2]
    dsimp only
    rw [hgen2]
    dsimp only
    have hnone : ShipmentRepository.findByTrackingNumberAndOrganization st' ftn2 orgId2 =
        none := by
      unfold ShipmentRepository.findByTrackingNumberAndOrganization
      rw [List.find?_eq_none]
      intro x hx
      simp only [Bool.and_eq_true, beq_iff_eq]
      exact hfree2 x hx
    rw [hnone]
    dsimp only
    rcases hre2 : ShipmentRepository.findByIdAndOrganization
        { st' with
          shipments := st'.shipments ++
            [{ id := st'.nextId, trackingNumber := ftn2,
               organizationId := orgId2, origin := data.origin,
               destination := data.destination, weight := data.weight, pieces := data.pieces,
               currentStatus := data.status, company := data.company, createdByUserId := u3 }],
          nextId := st'.nextId + 1 } st'.nextId orgId2 with _ | w2
    · exfalso
      unfold ShipmentRepository.findByIdAndOrganization at hre2
      rw [List.find?_eq_none] at hre2
      refine hre2 { id := st'.nextId, trackingNumber := ftn2,
                    organizationId := orgId2, origin := data.origin,
                    destination := data.destination, weight := data.weight,
                    pieces := data.pieces, currentStatus := data.status,
                    company := data.company, createdByUserId := u3 }
        ?_ (by simp)
      exact List.mem_append_right _ (List.mem_singleton.mpr rfl)
    · exact ⟨_, _, rfl⟩

/-- C6 witness: suffix "SHIP001" created twice in organization 10 fails
the second time with the duplicate message; the same suffix in
organization 20 succeeds. -/
theorem createShipment_duplicate_spec_witness :
    ∃ resp st' resp2 st2,
      ShipmentService.createShipment
        { orgs := [{ id := 10, name := "Acme Corp" }, { id := 20, name := "Beta Freight" }],
          shipments := [], events := [], nextId := 1 }
        { trackingNumber := "SHIP001", origin := "A", destination := "B",
          weight := 1, pieces := 1, status := "pending", company := none } 10 7 =
        .ok (resp, st') ∧
      ShipmentService.createShipment st'
        { trackingNumber := "SHIP001", origin := "A", destination := "B",
          weight := 1, pieces := 1, status := "pending", company := none } 10 8 =
        .error "Tracking number already exists in your organization" ∧
      ShipmentService.createShipment st'
        { trackingNumber := "SHIP001", origin := "A", destination := "B",
          weight := 1, pieces := 1, status := "pending", company := none } 20 9 =
        .ok (resp2, st2) := by
  have h := createShipment_duplicate_spec
    { orgs := [{ id := 10, name := "Acme Corp" }, { id := 20, name := "Beta Freight" }],
      shipments := [], events := [], nextId := 1 }
    { trackingNumber := "SHIP001", origin := "A", destination := "B",
      weight := 1, pieces := 1, status := "pending", company := none } 10 7 8 _ _ rfl
  obtain ⟨r2, s2, h2⟩ := h.2 20 { id := 20, name := "Beta Freight" } "BF-SHIP001" 9
    rfl rfl (by decide)
  exact ⟨_, _, r2, s2, rfl, h.1.1, h2⟩

/-! Success-shape lemmas for the four ledger operations, used by the
reachability induction. -/

theorem eq_of_mem_pairwise_id {l : List TravelEvent}
    (hp : l.Pairwise (fun a b => a.id ≠ b.id)) :
    ∀ {e e' : TravelEvent}, e ∈ l → e' ∈ l → e.id = e'.id → e = e' := by
  induction l with
  | nil =>
    intro e e' he
    cases he
  | cons a tl ih =>
    intro e e' he he' hid
    rw [List.pairwise_cons] at hp
    rcases List.mem_cons.mp he with rfl | he1
    · rcases List.mem_cons.mp he' with rfl | he2
      · rfl
      · exact absurd hid (hp.1 e' he2)
    · rcases List.mem_cons.mp he' with rfl | he2
      · exact absurd hid.symm (hp.1 e he1)
      · exact ih hp.2 he1 he2 hid

theorem mem_updateStatus {st : LedgerState} {sid : Nat} {status : String} {s' : Shipment} :
    s' ∈ (ShipmentRepository.updateStatus st sid status).shipments ↔
      ∃ s ∈ st.shipments,
        (if s.id = sid then { s with currentStatus := status } else s) = s' := by
  rw [updateStatus_shipments]
  exact List.mem_map

theorem updateStatus_unpack {st : LedgerState} {sid : Nat} {status : String} {s' : Shipment}
    (h : s' ∈ (ShipmentRepository.updateStatus st sid status).shipments) :
    ∃ s ∈ st.shipments, s'.id = s.id ∧
      (s.id = sid → s'.currentStatus = status) ∧ (s.id ≠ sid → s' = s) := by
  obtain ⟨s, hs, hfs⟩ := mem_updateStatus.mp h
  by_cases hid : s.id = sid
  · rw [if_pos hid] at hfs
    exact ⟨s, hs, by rw [← hfs], fun _ => by rw [← hfs], fun hne => absurd hid hne⟩
  · rw [if_neg hid] at hfs
    exact ⟨s, hs, by rw [← hfs], fun hc => absurd hc hid, fun _ => hfs.symm⟩

theorem recalculate_as_updateStatus (st : LedgerState) (sid : Nat) :
    ∃ status, ShipmentService.recalculateShipmentStatus st sid =
      ShipmentRepository.updateStatus st sid status := by
  rw [recalculate_eq]
  cases sortByTimestampDesc (ShipmentRepository.findTravelEventsByShipment st sid) with
  | nil => exact ⟨"Created", rfl⟩
  | cons e r => exact ⟨e.status, rfl⟩

theorem findTravelEvent_some {st : LedgerState} {eid orgId : Nat} {ev : TravelEvent}
    (h : ShipmentRepository.findTravelEventByIdAndOrganization st eid orgId = some ev) :
    ev ∈ st.events ∧ ev.id = eid := by
  refine ⟨List.mem_of_find?_eq_some h, ?_⟩
  have hp := List.find?_some h
  simp only [Bool.and_eq_true, beq_iff_eq] at hp
  exact hp.1

theorem createShipment_ok_shape {st : LedgerState} {data : CreateShipmentDTO}
    {orgId u : Nat} {resp : ShipmentResponse} {st' : LedgerState}
    (h : ShipmentService.createShipment st data orgId u = .ok (resp, st')) :
    ∃ ftn, st' =
      { st with
        shipments := st.shipments ++
          [{ id := st.nextId, trackingNumber := ftn, organizationId := orgId,
             origin := data.origin, destination := data.destination,
             weight := data.weight, pieces := data.pieces, currentStatus := data.status,
             company := data.company, createdByUserId := u }],
        nextId := st.nextId + 1 } := by
  unfold ShipmentService.createShipment at h
  rcases horg : st.orgs.find? (fun o => o.id == orgId) with _ | org
  · rw [horg] at h; cases h
  rw [horg] at h
  dsimp only at h
  rcases hgen : generateTrackingNumber org.name data.trackingNumber with e | ftn
  · rw [hgen] at h; cases h
  rw [hgen] at h
  dsimp only at h
  rcases hdup : ShipmentRepository.findByTrackingNumberAndOrganization st ftn orgId
    with _ | sdup
  swap
  · rw [hdup] at h; cases h
  rw [hdup] at h
  dsimp only at h
  rcases hre : ShipmentRepository.findByIdAndOrganization
      { st with
        shipments := st.shipments ++
          [{ id := st.nextId, trackingNumber := ftn, organizationId := orgId,
             origin := data.origin, destination := data.destination,
             weight := data.weight, pieces := data.pieces, currentStatus := data.status,
             company := data.company, createdByUserId := u }],
        nextId := st.nextId + 1 } st.nextId orgId with _ | w
  · rw [hre] at h; cases h
  rw [hre] at h
  exact ⟨ftn, (congrArg Prod.snd (Except.ok.inj h)).symm⟩

theorem addTravelEvent_ok_shape {st : LedgerState} {sid orgId : Nat}
    {data : CreateTravelEventDTO} {u : Option Nat} {now : Nat}
    {r : TravelEventResponse} {st' : LedgerState}
    (h : ShipmentService.addTravelEvent st sid orgId data u now = .ok (r, st')) :
    (∃ s0 ∈ st.shipments, s0.id = sid ∧ s0.organizationId = orgId) ∧
    st' = ShipmentRepository.updateStatus
      { st with
        events := st.events ++
          [{ id := st.nextId, shipmentId := sid, status := data.status,
             location := data.location, description := data.description.getD "",
             timestamp := now, eventType := data.eventType, createdByUserId := u }],
        nextId := st.nextId + 1 } sid data.status := by
  unfold ShipmentService.addTravelEvent at h
  rcases hfind : ShipmentRepository.findByIdAndOrganization st sid orgId with _ | s0
  · rw [hfind] at h; cases h
  rw [hfind] at h
  have hmem := List.mem_of_find?_eq_some hfind
  have hpred := List.find?_some hfind
  simp only [Bool.and_eq_true, beq_iff_eq] at hpred
  exact ⟨⟨s0, hmem, hpred.1, hpred.2⟩, (congrArg Prod.snd (Except.ok.inj h)).symm⟩

theorem updateTravelEvent_ok_shape {st : LedgerState} {eid orgId : Nat}
    {data : UpdateTravelEventDTO} {r : TravelEventResponse} {st' : LedgerState}
    (h : ShipmentService.updateTravelEvent st eid orgId data = .ok (r, st')) :
    ∃ ev, ShipmentRepository.findTravelEventByIdAndOrganization st eid orgId = some ev ∧
      st' = (if ShipmentService.jsTruthyStr data.status = true then
        ShipmentService.recalculateShipmentStatus
          (ShipmentRepository.updateTravelEventRow st eid data) ev.shipmentId
      else ShipmentRepository.updateTravelEventRow st eid data) := by
  unfold ShipmentService.updateTravelEvent at h
  rcases hfind : ShipmentRepository.findTravelEventByIdAndOrganization st eid orgId
    with _ | ev
  · rw [hfind] at h; cases h
  rw [hfind] at h
  exact ⟨ev, rfl, (congrArg Prod.snd (Except.ok.inj h)).symm⟩

theorem deleteTravelEvent_ok_shape {st : LedgerState} {eid orgId : Nat} {st' : LedgerState}
    (h : ShipmentService.deleteTravelEvent st eid orgId = .ok st') :
    ∃ ev, ShipmentRepository.findTravelEventByIdAndOrganization st eid orgId = some ev ∧
      st' = ShipmentService.recalculateShipmentStatus
        (ShipmentRepository.deleteTravelEventRow st eid) ev.shipmentId := by
  unfold ShipmentService.deleteTravelEvent at h
  rcases hfind : ShipmentRepository.findTravelEventByIdAndOrganization st eid orgId
    with _ | ev
  · rw [hfind] at h; cases h
  rw [hfind] at h
  exact ⟨ev, rfl, (Except.ok.inj h).symm⟩

theorem latestEventStatusOK_of_eq {st st' : LedgerState} {s : Shipment}
    (h : ShipmentRepository.travelEventsOf st' s.id = ShipmentRepository.travelEventsOf st s.id)
    (hs : latestEventStatusOK st s) : latestEventStatusOK st' s := by
  unfold latestEventStatusOK at hs ⊢
  rw [h]
  exact hs

theorem ledgerWF_create {st : LedgerState} {data : CreateShipmentDTO} {orgId u : Nat}
    {resp : ShipmentResponse} {st' : LedgerState}
    (h : ShipmentService.createShipment st data orgId u = .ok (resp, st'))
    (hwf : ledgerWF st) : ledgerWF st' := by
  obtain ⟨ftn, hst'⟩ := createShipment_ok_shape h
  subst hst'
  obtain ⟨hsid, heid, hpw, hes, hlat⟩ := hwf
  refine ⟨?_, ?_, ?_, ?_, ?_⟩
  · intro s hs
    rcases List.mem_append.mp hs with hs | hs
    · exact Nat.lt_succ_of_lt (hsid s hs)
    · rcases List.mem_singleton.mp hs with rfl
      exact Nat.lt_succ_self _
  · intro e he
    exact Nat.lt_succ_of_lt (heid e he)
  · exact hpw
  · intro e he
    obtain ⟨s, hs, hid⟩ := hes e he
    exact ⟨s, List.mem_append_left _ hs, hid⟩
  · intro s hs
    rcases List.mem_append.mp hs with hs | hs
    · exact hlat s hs
    · rcases List.mem_singleton.mp hs with rfl
      intro hne
      exfalso
      obtain ⟨e, he⟩ := List.exists_mem_of_ne_nil _ hne
      have hef := List.mem_filter.mp he
      obtain ⟨s2, hs2, hid2⟩ := hes e hef.1
      have hlt : s2.id < st.nextId := hsid s2 hs2
      have heq : e.shipmentId = st.nextId := by simpa using hef.2
      rw [hid2, heq] at hlt
      exact Nat.lt_irrefl _ hlt

theorem ledgerWF_appendEvent (st : LedgerState) (ev : TravelEvent) (sid : Nat)
    (hwf : ledgerWF st)
    (hev_id : ev.id = st.nextId) (hev_sid : ev.shipmentId = sid)
    (hship : ∃ s0 ∈ st.shipments, s0.id = sid)
    (hnow : ∀ e ∈ st.events, e.timestamp ≤ ev.timestamp) :
    ledgerWF (ShipmentRepository.updateStatus
      { st with events := st.events ++ [ev], nextId := st.nextId + 1 } sid ev.status) := by
  obtain ⟨hsid, heid, hpw, hes, hlat⟩ := hwf
  obtain ⟨s0, hs0, hs0id⟩ := hship
  refine ⟨?_, ?_, ?_, ?_, ?_⟩
  · intro s hs
    obtain ⟨s1, hs1, hid1, _, _⟩ := updateStatus_unpack hs
    rw [hid1]
    exact Nat.lt_succ_of_lt (hsid s1 hs1)
  · intro e he
    rcases List.mem_append.mp he with he | he
    · exact Nat.lt_succ_of_lt (heid e he)
    · rcases List.mem_singleton.mp he with rfl
      rw [hev_id]
      exact Nat.lt_succ_self _
  · refine List.pairwise_append.mpr ⟨hpw, List.pairwise_singleton _ _, ?_⟩
    intro a ha b hb
    rcases List.mem_singleton.mp hb with rfl
    have h1 := heid a ha
    rw [hev_id]
    omega
  · intro e he
    rcases List.mem_append.mp he with he | he
    · obtain ⟨s2, hs2, hid2⟩ := hes e he
      refine ⟨_, mem_updateStatus.mpr ⟨s2, hs2, rfl⟩, ?_⟩
      have hx : (if s2.id = sid then { s2 with currentStatus := ev.status } else s2).id =
          s2.id := by
        split <;> rfl
      rw [hx]
      exact hid2
    · rcases List.mem_singleton.mp he with rfl
      refine ⟨_, mem_updateStatus.mpr ⟨s0, hs0, rfl⟩, ?_⟩
      have hx : (if s0.id = sid then { s0 with currentStatus := e.status } else s0).id =
          s0.id := by
        split <;> rfl
      rw [hx, hs0id, hev_sid]
  · intro s hs
    obtain ⟨s1, hs1, hid1, hmatch, hnomatch⟩ := updateStatus_unpack hs
    by_cases hc : s1.id = sid
    · intro _
      have hlist : ShipmentRepository.travelEventsOf (ShipmentRepository.updateStatus
          { st with events := st.events ++ [ev], nextId := st.nextId + 1 } sid ev.status)
            s.id =
          ShipmentRepository.travelEventsOf st s.id ++ [ev] := by
      -- the new event passes the filter for this shipment id
        show (st.events ++ [ev]).filter (fun e => e.shipmentId == s.id) = _
        rw [List.filter_append]
        have hone : [ev].filter (fun e => e.shipmentId == s.id) = [ev] := by
          rw [List.filter_eq_self]
          intro a ha
          rcases List.mem_singleton.mp ha with rfl
          rw [hev_sid, hid1, hc]
          exact beq_self_eq_true sid
        rw [hone]
        rfl
      rw [hlist]
      refine ⟨ev, List.mem_append_right _ (List.mem_singleton.mpr rfl), ?_, ?_⟩
      · intro e' he'
        rcases List.mem_append.mp he' with he' | he'
        · exact hnow e' (List.mem_of_mem_filter he')
        · rcases List.mem_singleton.mp he' with rfl
          exact Nat.le_refl _
      · exact hmatch hc
    · have hse := hnomatch hc
      subst hse
      refine latestEventStatusOK_of_eq ?_ (hlat s hs1)
      show (st.events ++ [ev]).filter (fun e => e.shipmentId == s.id) = _
      rw [List.filter_append]
      have hzero : [ev].filter (fun e => e.shipmentId == s.id) = [] := by
        rw [List.filter_eq_nil_iff]
        intro a ha
        rcases List.mem_singleton.mp ha with rfl
        rw [hev_sid]
        simp only [beq_iff_eq]
        intro hx
        exact hc hx.symm
      rw [hzero, List.append_nil]
      rfl

theorem patchFn_id (data : UpdateTravelEventDTO) (eid : Nat) (e : TravelEvent) :
    (if e.id = eid then ShipmentRepository.applyEventPatch e data else e).id = e.id := by
  split <;> rfl

theorem patchFn_shipmentId (data : UpdateTravelEventDTO) (eid : Nat) (e : TravelEvent) :
    (if e.id = eid then ShipmentRepository.applyEventPatch e data else e).shipmentId =
      e.shipmentId := by
  split <;> rfl

theorem patchFn_timestamp (data : UpdateTravelEventDTO) (eid : Nat) (e : TravelEvent) :
    (if e.id = eid then ShipmentRepository.applyEventPatch e data else e).timestamp =
      e.timestamp := by
  split <;> rfl

theorem patchFn_status_none {data : UpdateTravelEventDTO} (h : data.status = none)
    (eid : Nat) (e : TravelEvent) :
    (if e.id = eid then ShipmentRepository.applyEventPatch e data else e).status =
      e.status := by
  split
  · show (ShipmentRepository.applyEventPatch e data).status = e.status
    unfold ShipmentRepository.applyEventPatch
    rw [h]
    rfl
  · rfl

theorem travelEventsOf_updateRow (st : LedgerState) (eid : Nat)
    (data : UpdateTravelEventDTO) (x : Nat) :
    ShipmentRepository.travelEventsOf (ShipmentRepository.updateTravelEventRow st eid data) x =
      (ShipmentRepository.travelEventsOf st x).map
        (fun e => if e.id = eid then ShipmentRepository.applyEventPatch e data else e) := by
  show ((st.events.map _).filter _ : List TravelEvent) = _
  rw [List.filter_map]
  refine congrArg (List.map _) (List.filter_congr ?_)
  intro a _
  show ((if a.id = eid then ShipmentRepository.applyEventPatch a data else a).shipmentId == x) =
    (a.shipmentId == x)
  rw [patchFn_shipmentId]

theorem travelEventsOf_updateRow_other {st : LedgerState} {eid : Nat}
    {data : UpdateTravelEventDTO} {x : Nat}
    (hpw : st.events.Pairwise (fun a b => a.id ≠ b.id))
    {ev : TravelEvent} (hev_mem : ev ∈ st.events) (hev_id : ev.id = eid)
    (hx : ev.shipmentId ≠ x) :
    ShipmentRepository.travelEventsOf (ShipmentRepository.updateTravelEventRow st eid data) x =
      ShipmentRepository.travelEventsOf st x := by
  rw [travelEventsOf_updateRow]
  have hcong : ∀ a ∈ ShipmentRepository.travelEventsOf st x,
      (if a.id = eid then ShipmentRepository.applyEventPatch a data else a) = id a := by
    intro a ha
    have hship : a.shipmentId = x := by
      simpa using (List.mem_filter.mp ha).2
    have hane : ¬ a.id = eid := by
      intro haid
      have : a = ev := eq_of_mem_pairwise_id hpw (List.mem_of_mem_filter ha) hev_mem
        (by rw [haid, hev_id])
      rw [this] at hship
      exact hx hship
    rw [if_neg hane]
    rfl
  rw [List.map_congr_left hcong, List.map_id]

theorem ledgerWF_updateEvent {st : LedgerState} {eid orgId : Nat}
    {data : UpdateTravelEventDTO} {r : TravelEventResponse} {st' : LedgerState}
    (h : ShipmentService.updateTravelEvent st eid orgId data = .ok (r, st'))
    (hwf : ledgerWF st) (hval : data.status ≠ some "") : ledgerWF st' := by
  obtain ⟨ev, hfind, hst'⟩ := updateTravelEvent_ok_shape h
  obtain ⟨hev_mem, hev_id⟩ := findTravelEvent_some hfind
  obtain ⟨hsid, heid, hpw, hes, hlat⟩ := hwf
  by_cases ht : ShipmentService.jsTruthyStr data.status = true
  · -- the patch carried a truthy status: recalculation runs
    rw [if_pos ht] at hst'
    subst hst'
    have hinv := recalculate_statusInvariant
      (ShipmentRepository.updateTravelEventRow st eid data) ev.shipmentId
    obtain ⟨stat, hreq⟩ := recalculate_as_updateStatus
      (ShipmentRepository.updateTravelEventRow st eid data) ev.shipmentId
    refine ⟨?_, ?_, ?_, ?_, ?_⟩
    · intro s hs
      rw [hreq] at hs
      obtain ⟨s1, hs1, hid1, _, _⟩ := updateStatus_unpack hs
      rw [hid1, recalculate_nextId]
      exact hsid s1 hs1
    · intro e he
      rw [hreq] at he
      obtain ⟨a, ha, rfl⟩ := List.mem_map.mp he
      rw [patchFn_id, recalculate_nextId]
      exact heid a ha
    · rw [hreq]
      show (st.events.map _).Pairwise _
      rw [List.pairwise_map]
      refine hpw.imp ?_
      intro a b hab
      rw [patchFn_id, patchFn_id]
      exact hab
    · intro e he
      rw [hreq] at he
      obtain ⟨a, ha, rfl⟩ := List.mem_map.mp he
      obtain ⟨s2, hs2, hid2⟩ := hes a ha
      rw [hreq]
      refine ⟨_, mem_updateStatus.mpr ⟨s2, hs2, rfl⟩, ?_⟩
      have hid3 : (if s2.id = ev.shipmentId then { s2 with currentStatus := stat }
          else s2).id = s2.id := by
        split <;> rfl
      rw [hid3, patchFn_shipmentId]
      exact hid2
    · intro s hs
      by_cases hc : s.id = ev.shipmentId
      · intro hne
        have h2 := (hinv s hs hc).2
        rw [hc] at hne ⊢
        exact h2 hne
      · rw [hreq] at hs
        obtain ⟨s1, hs1, hid1, _, hnomatch⟩ := updateStatus_unpack hs
        have hcc : ¬ s1.id = ev.shipmentId := by
          rw [← hid1]
          exact hc
        have hse := hnomatch hcc
        subst hse
        refine latestEventStatusOK_of_eq ?_ (hlat s hs1)
        have h1 : ShipmentRepository.travelEventsOf
            (ShipmentService.recalculateShipmentStatus
              (ShipmentRepository.updateTravelEventRow st eid data) ev.shipmentId) s.id =
            ShipmentRepository.travelEventsOf
              (ShipmentRepository.updateTravelEventRow st eid data) s.id :=
          travelEventsOf_eq_of_events (recalculate_events _ _) s.id
        rw [h1]
        exact travelEventsOf_updateRow_other hpw hev_mem hev_id (fun hx => hc hx.symm)
  · -- no truthy status in the patch: only the row changes
    rw [if_neg ht] at hst'
    subst hst'
    have hnone : data.status = none := by
      rcases hd : data.status with _ | s
      · rfl
      · exfalso
        rw [hd] at ht hval
        apply hval
        rcases hemp : s.isEmpty with _ | _
        · exact absurd (by show (!s.isEmpty) = true; rw [hemp]; rfl) ht
        · rw [(String.isEmpty_iff s).mp hemp]
    refine ⟨?_, ?_, ?_, ?_, ?_⟩
    · intro s hs
      exact hsid s hs
    · intro e he
      obtain ⟨a, ha, rfl⟩ := List.mem_map.mp he
      rw [patchFn_id]
      exact heid a ha
    · show (st.events.map _).Pairwise _
      rw [List.pairwise_map]
      refine hpw.imp ?_
      intro a b hab
      rw [patchFn_id, patchFn_id]
      exact hab
    · intro e he
      obtain ⟨a, ha, rfl⟩ := List.mem_map.mp he
      obtain ⟨s2, hs2, hid2⟩ := hes a ha
      refine ⟨s2, hs2, ?_⟩
      rw [patchFn_shipmentId]
      exact hid2
    · intro s hs
      have hOld := hlat s hs
      unfold latestEventStatusOK at hOld ⊢
      rw [travelEventsOf_updateRow]
      intro hne
      have hne' : ShipmentRepository.travelEventsOf st s.id ≠ [] := by
        intro hx
        rw [hx] at hne
        exact hne rfl
      obtain ⟨e, he, hmax, hstat⟩ := hOld hne'
      refine ⟨_, List.mem_map_of_mem _ he, ?_, ?_⟩
      · intro e'' he''
        obtain ⟨a, ha, rfl⟩ := List.mem_map.mp he''
        rw [patchFn_timestamp, patchFn_timestamp]
        exact hmax a ha
      · rw [patchFn_status_none hnone]
        exact hstat

theorem travelEventsOf_deleteRow_other {st : LedgerState} {eid : Nat} {x : Nat}
    (hpw : st.events.Pairwise (fun a b => a.id ≠ b.id))
    {ev : TravelEvent} (hev_mem : ev ∈ st.events) (hev_id : ev.id = eid)
    (hx : ev.shipmentId ≠ x) :
    ShipmentRepository.travelEventsOf (ShipmentRepository.deleteTravelEventRow st eid) x =
      ShipmentRepository.travelEventsOf st x := by
  show ((st.events.filter _).filter _ : List TravelEvent) = _
  rw [List.filter_comm]
  refine List.filter_eq_self.mpr ?_
  intro a ha
  have hship : a.shipmentId = x := by
    simpa using (List.mem_filter.mp ha).2
  have hane : ¬ a.id = eid := by
    intro haid
    have : a = ev := eq_of_mem_pairwise_id hpw (List.mem_of_mem_filter ha) hev_mem
      (by rw [haid, hev_id])
    rw [this] at hship
    exact hx hship
  simpa using hane

theorem ledgerWF_deleteEvent {st : LedgerState} {eid orgId : Nat} {st' : LedgerState}
    (h : ShipmentService.deleteTravelEvent st eid orgId = .ok st')
    (hwf : ledgerWF st) : ledgerWF st' := by
  obtain ⟨ev, hfind, hst'⟩ := deleteTravelEvent_ok_shape h
  obtain ⟨hev_mem, hev_id⟩ := findTravelEvent_some hfind
  obtain ⟨hsid, heid, hpw, hes, hlat⟩ := hwf
  subst hst'
  have hinv := recalculate_statusInvariant
    (ShipmentRepository.deleteTravelEventRow st eid) ev.shipmentId
  obtain ⟨stat, hreq⟩ := recalculate_as_updateStatus
    (ShipmentRepository.deleteTravelEventRow st eid) ev.shipmentId
  refine ⟨?_, ?_, ?_, ?_, ?_⟩
  · intro s hs
    rw [hreq] at hs
    obtain ⟨s1, hs1, hid1, _, _⟩ := updateStatus_unpack hs
    rw [hid1, recalculate_nextId]
    exact hsid s1 hs1
  · intro e he
    rw [hreq] at he
    have he2 : e ∈ st.events.filter (fun e => !(e.id == eid)) := he
    rw [recalculate_nextId]
    exact heid e (List.mem_of_mem_filter he2)
  · rw [hreq]
    show (st.events.filter _).Pairwise _
    exact hpw.filter _
  · intro e he
    rw [hreq] at he
    have he2 : e ∈ st.events.filter (fun e => !(e.id == eid)) := he
    obtain ⟨s2, hs2, hid2⟩ := hes e (List.mem_of_mem_filter he2)
    rw [hreq]
    refine ⟨_, mem_updateStatus.mpr ⟨s2, hs2, rfl⟩, ?_⟩
    have hid3 : (if s2.id = ev.shipmentId then { s2 with currentStatus := stat }
        else s2).id = s2.id := by
      split <;> rfl
    rw [hid3]
    exact hid2
  · intro s hs
    by_cases hc : s.id = ev.shipmentId
    · intro hne
      have h2 := (hinv s hs hc).2
      rw [hc] at hne ⊢
      exact h2 hne
    · rw [hreq] at hs
      obtain ⟨s1, hs1, hid1, _, hnomatch⟩ := updateStatus_unpack hs
      have hcc : ¬ s1.id = ev.shipmentId := by
        rw [← hid1]
        exact hc
      have hse := hnomatch hcc
      subst hse
      refine latestEventStatusOK_of_eq ?_ (hlat s hs1)
      have h1 : ShipmentRepository.travelEventsOf
          (ShipmentService.recalculateShipmentStatus
            (ShipmentRepository.deleteTravelEventRow st eid) ev.shipmentId) s.id =
          ShipmentRepository.travelEventsOf
            (ShipmentRepository.deleteTravelEventRow st eid) s.id :=
        travelEventsOf_eq_of_events (recalculate_events _ _) s.id
      rw [h1]
      exact travelEventsOf_deleteRow_other hpw hev_mem hev_id (fun hx => hc hx.symm)

theorem ledgerWF_applyOp (st : LedgerState) (op : LedgerOp)
    (hwf : ledgerWF st) (hop : opWF st op) : ledgerWF (applyOp st op) := by
  cases op with
  | create data orgId u =>
    unfold applyOp
    dsimp only
    rcases hres : ShipmentService.createShipment st data orgId u with e | ⟨r2, st2⟩
    · exact hwf
    · exact ledgerWF_create hres hwf
  | addEvent sid orgId data u now =>
    unfold applyOp
    dsimp only
    rcases hres : ShipmentService.addTravelEvent st sid orgId data u now with e | ⟨r2, st2⟩
    · exact hwf
    · obtain ⟨⟨s0, hs0, hs0id, _⟩, hst2⟩ := addTravelEvent_ok_shape hres
      show ledgerWF st2
      rw [hst2]
      exact ledgerWF_appendEvent st
        { id := st.nextId, shipmentId := sid, status := data.status,
          location := data.location, description := data.description.getD "",
          timestamp := now, eventType := data.eventType, createdByUserId := u }
        sid hwf rfl rfl ⟨s0, hs0, hs0id⟩ hop
  | updateEvent eid orgId data =>
    unfold applyOp
    dsimp only
    rcases hres : ShipmentService.updateTravelEvent st eid orgId data with e | ⟨r2, st2⟩
    · exact hwf
    · exact ledgerWF_updateEvent hres hwf hop
  | deleteEvent eid orgId =>
    unfold applyOp
    dsimp only
    rcases hres : ShipmentService.deleteTravelEvent st eid orgId with e | st2
    · exact hwf
    · exact ledgerWF_deleteEvent hres hwf

theorem ledgerWF_reachable {st : LedgerState} (h : Reachable st) : ledgerWF st := by
  induction h with
  | init orgs n =>
    exact ⟨fun s hs => absurd hs (List.not_mem_nil s),
      fun e he => absurd he (List.not_mem_nil e),
      List.Pairwise.nil,
      fun e he => absurd he (List.not_mem_nil e),
      fun s hs => absurd hs (List.not_mem_nil s)⟩
  | step op hr hop ih =>
    exact ledgerWF_applyOp _ op ih hop

/-- C2 (amended): at every state reachable through the four Shipment
Ledger operations — run under a monotone server clock and validated
patches, as the deployment guarantees — every shipment with a **non-empty**
event set has `currentStatus` equal to the status of an event with the
latest timestamp.  The "sentinel when empty" half of the claim is false:
`createShipment` seeds `currentStatus` with the caller-supplied status and
an empty event set (see the counterexample); an empty event set carries
`"Created"` only after event deletion. -/
theorem reachable_latest_status (st : LedgerState) (h : Reachable st) :
    ∀ s ∈ st.shipments, latestEventStatusOK st s :=
  (ledgerWF_reachable h).2.2.2.2

/-- C2 counterexample: a freshly created shipment with caller-supplied
status `"pending"` is reachable, has an empty event set, and does not
carry the sentinel `"Created"`. -/
theorem createShipment_initial_status_cex :
    Reachable (applyOp
      { orgs := [{ id := 10, name := "Acme Corp" }], shipments := [], events := [],
        nextId := 1 }
      (.create { trackingNumber := "SHIP001", origin := "A", destination := "B",
                 weight := 1, pieces := 1, status := "pending", company := none } 10 7)) ∧
    ∃ s ∈ (applyOp
      { orgs := [{ id := 10, name := "Acme Corp" }], shipments := [], events := [],
        nextId := 1 }
      (.create { trackingNumber := "SHIP001", origin := "A", destination := "B",
                 weight := 1, pieces := 1, status := "pending", company := none } 10 7)).shipments,
      ShipmentRepository.travelEventsOf (applyOp
        { orgs := [{ id := 10, name := "Acme Corp" }], shipments := [], events := [],
          nextId := 1 }
        (.create { trackingNumber := "SHIP001", origin := "A", destination := "B",
                   weight := 1, pieces := 1, status := "pending", company := none } 10 7)) s.id = [] ∧
      s.currentStatus ≠ "Created" := by
  refine ⟨Reachable.step _ (Reachable.init _ _) (show True by trivial), ?_⟩
  refine ⟨{ id := 1, trackingNumber := "AC-SHIP001", organizationId := 10,
            origin := "A", destination := "B", weight := 1, pieces := 1,
            currentStatus := "pending", company := none, createdByUserId := 7 },
    ?_, ?_, ?_⟩
  · decide
  · decide
  · decide

/-- C2 witness: after creating a shipment and appending an event through
the reachability relation, the amended invariant holds for the concrete
shipment. -/
theorem reachable_latest_status_witness :
    latestEventStatusOK
      (applyOp (applyOp
        { orgs := [{ id := 10, name := "Acme Corp" }], shipments := [], events := [],
          nextId := 1 }
        (.create { trackingNumber := "SHIP001", origin := "A", destination := "B",
                   weight := 1, pieces := 1, status := "pending", company := none } 10 7))
        (.addEvent 1 10 { status := "in-transit", location := "L", description := none,
                          eventType := "in-transit" } (some 7) 5))
      { id := 1, trackingNumber := "AC-SHIP001", organizationId := 10,
        origin := "A", destination := "B", weight := 1, pieces := 1,
        currentStatus := "in-transit", company := none, createdByUserId := 7 } :=
  reachable_latest_status _
    (Reachable.step
      (.addEvent 1 10 { status := "in-transit", location := "L", description := none,
                        eventType := "in-transit" } (some 7) 5)
      (Reachable.step
        (.create { trackingNumber := "SHIP001", origin := "A", destination := "B",
                   weight := 1, pieces := 1, status := "pending", company := none } 10 7)
        (Reachable.init [{ id := 10, name := "Acme Corp" }] 1) (show True by trivial))
      (show ∀ e ∈ (applyOp
          { orgs := [{ id := 10, name := "Acme Corp" }], shipments := [], events := [],
            nextId := 1 }
          (.create { trackingNumber := "SHIP001", origin := "A", destination := "B",
                     weight := 1, pieces := 1, status := "pending",
                     company := none } 10 7)).events, e.timestamp ≤ 5 by decide))
    _ (by decide)

/-! Invitation workflow lemmas. -/

theorem acceptInvitation_invalid {st : InvState} {token : String}
    {data : InvitationService.AcceptInvitationDTO} {now : Nat}
    (hfind : (UserInvitationRepository.findByToken st token).isSome = true)
    (hval : UserInvitationRepository.isValid st token now = false) :
    InvitationService.acceptInvitation st token data now =
      .error "Invitation is invalid or has expired" := by
  unfold InvitationService.acceptInvitation
  rcases hf : UserInvitationRepository.findByToken st token with _ | inv
  · rw [hf] at hfind
    cases hfind
  · dsimp only
    rw [hval]
    rfl

theorem acceptInvitation_expired {st : InvState} {token : String}
    {data : InvitationService.AcceptInvitationDTO} {now : Nat} {inv : UserInvitation}
    (hfind : UserInvitationRepository.findByToken st token = some inv)
    (hexp : inv.expiresAt < now) :
    InvitationService.acceptInvitation st token data now =
      .error "Invitation is invalid or has expired" := by
  have hval : UserInvitationRepository.isValid st token now = false := by
    unfold UserInvitationRepository.isValid
    rw [hfind]
    dsimp only
    by_cases ha : inv.acceptedAt.isSome = true
    · rw [if_pos ha]
    · rw [if_neg ha, if_pos hexp]
  exact acceptInvitation_invalid (by rw [hfind]; rfl) hval

theorem isValid_true_iff {st : InvState} {token : String} {now : Nat} {inv : UserInvitation}
    (hfind : UserInvitationRepository.findByToken st token = some inv) :
    UserInvitationRepository.isValid st token now = true ↔
      (inv.acceptedAt = none ∧ now ≤ inv.expiresAt) := by
  unfold UserInvitationRepository.isValid
  rw [hfind]
  dsimp only
  constructor
  · intro h
    by_cases ha : inv.acceptedAt.isSome = true
    · rw [if_pos ha] at h
      cases h
    · rw [if_neg ha] at h
      by_cases he : inv.expiresAt < now
      · rw [if_pos he] at h
        cases h
      · exact ⟨Option.not_isSome_iff_eq_none.mp ha, Nat.le_of_not_lt he⟩
  · intro hand
    rw [hand.1]
    rw [if_neg (by simp), if_neg (Nat.not_lt.mpr hand.2)]

theorem findByToken_markAsAccepted (st : InvState) (id now : Nat) (token : String) :
    UserInvitationRepository.findByToken
        (UserInvitationRepository.markAsAccepted st id now) token =
      (UserInvitationRepository.findByToken st token).map
        (fun i => if i.id = id then { i with acceptedAt := some now } else i) := by
  show (st.invitations.map _).find? _ = _
  rw [List.find?_map]
  have hfn : ((fun i : UserInvitation => i.invitationToken == token) ∘
      (fun i => if i.id = id then { i with acceptedAt := some now } else i)) =
      fun i : UserInvitation => i.invitationToken == token := by
    funext i
    show ((if i.id = id then { i with acceptedAt := some now } else i).invitationToken ==
      token) = _
    split <;> rfl
  rw [hfn]
  rfl

theorem acceptInvitation_ok_shape {st : InvState} {token : String}
    {data : InvitationService.AcceptInvitationDTO} {now : Nat} {r : String} {st' : InvState}
    (h : InvitationService.acceptInvitation st token data now = .ok (r, st')) :
    ∃ inv, UserInvitationRepository.findByToken st token = some inv ∧
      UserInvitationRepository.isValid st token now = true ∧
      st' = UserInvitationRepository.markAsAccepted
        { st with
          users := st.users ++
            [{ id := st.nextId, email := inv.email, displayName := data.displayName,
               organizationId := inv.organizationId, role := inv.role,
               invitedByUserId := some inv.invitedByUserId }],
          nextId := st.nextId + 1 } inv.id now := by
  unfold InvitationService.acceptInvitation at h
  rcases hfind : UserInvitationRepository.findByToken st token with _ | inv
  · rw [hfind] at h
    cases h
  rw [hfind] at h
  dsimp only at h
  by_cases hv : (!(UserInvitationRepository.isValid st token now)) = true
  · rw [if_pos hv] at h
    cases h
  rw [if_neg hv] at h
  by_cases hu : (st.users.any fun u =>
      u.email == inv.email && u.organizationId == inv.organizationId) = true
  · rw [if_pos hu] at h
    cases h
  rw [if_neg hu] at h
  refine ⟨inv, rfl, ?_, (congrArg Prod.snd (Except.ok.inj h)).symm⟩
  rcases hval : UserInvitationRepository.isValid st token now with _ | _
  · exfalso
    apply hv
    rw [hval]
    rfl
  · rfl

theorem acceptInvitation_after_mark {st : InvState} {token : String} {inv : UserInvitation}
    {now : Nat} (hfind : UserInvitationRepository.findByToken st token = some inv)
    (data' : InvitationService.AcceptInvitationDTO) (now' : Nat) :
    InvitationService.acceptInvitation
        (UserInvitationRepository.markAsAccepted st inv.id now) token data' now' =
      .error "Invitation is invalid or has expired" := by
  have hfind' : UserInvitationRepository.findByToken
      (UserInvitationRepository.markAsAccepted st inv.id now) token =
      some { inv with acceptedAt := some now } := by
    rw [findByToken_markAsAccepted, hfind]
    show some (if inv.id = inv.id then _ else _) = _
    rw [if_pos rfl]
  have hval' : UserInvitationRepository.isValid
      (UserInvitationRepository.markAsAccepted st inv.id now) token now' = false := by
    unfold UserInvitationRepository.isValid
    rw [hfind']
    rfl
  exact acceptInvitation_invalid (by rw [hfind']; rfl) hval'

/-- C9: `acceptInvitation` fails on an unknown token; a second accept with
the same token always fails; it fails when the current time is past the
7-day expiry even if the invitation was never accepted; and a successful
accept implies the invitation was pending and unexpired. -/
theorem acceptInvitation_spec (st : InvState) (token : String)
    (data : InvitationService.AcceptInvitationDTO) (now : Nat) :
    ((∀ inv ∈ st.invitations, inv.invitationToken ≠ token) →
      InvitationService.acceptInvitation st token data now = .error "Invitation not found") ∧
    (∀ r st', InvitationService.acceptInvitation st token data now = .ok (r, st') →
      ∀ data' now', InvitationService.acceptInvitation st' token data' now' =
        .error "Invitation is invalid or has expired") ∧
    (∀ inv, UserInvitationRepository.findByToken st token = some inv →
      inv.acceptedAt = none → inv.expiresAt < now →
      InvitationService.acceptInvitation st token data now =
        .error "Invitation is invalid or has expired") ∧
    (∀ orgId inviter : Nat, ∀ email role tok : String, ∀ c : Nat,
      ∀ inv : UserInvitation, ∀ st1 : InvState,
      UserInvitationRepository.createInvitation st orgId email role inviter tok c =
        (inv, st1) →
      (∀ i ∈ st.invitations, i.invitationToken ≠ tok) →
      ∀ now', c + 7 * msPerDay < now' →
        InvitationService.acceptInvitation st1 tok data now' =
          .error "Invitation is invalid or has expired") ∧
    (∀ r st', InvitationService.acceptInvitation st token data now = .ok (r, st') →
      ∃ inv, UserInvitationRepository.findByToken st token = some inv ∧
        inv.acceptedAt = none ∧ now ≤ inv.expiresAt) := by
  refine ⟨?_, ?_, ?_, ?_, ?_⟩
  · intro h
    have hnone : UserInvitationRepository.findByToken st token = none := by
      unfold UserInvitationRepository.findByToken
      rw [List.find?_eq_none]
      intro i hi
      simpa using h i hi
    unfold InvitationService.acceptInvitation
    rw [hnone]
  · intro r st' h data' now'
    obtain ⟨inv, hfind, _, hst'⟩ := acceptInvitation_ok_shape h
    subst hst'
    exact acceptInvitation_after_mark
      (show UserInvitationRepository.findByToken
        { st with
          users := st.users ++
            [{ id := st.nextId, email := inv.email, displayName := data.displayName,
               organizationId := inv.organizationId, role := inv.role,
               invitedByUserId := some inv.invitedByUserId }],
          nextId := st.nextId + 1 } token = some inv from hfind) data' now'
  · intro inv hfind _ hexp
    exact acceptInvitation_expired hfind hexp
  · intro orgId inviter email role tok c inv st1 hc hfresh now' hlt
    have hst1 : st1 =
        { st with
          invitations := st.invitations ++
            [{ id := st.nextId, organizationId := orgId, email := email, role := role,
               invitedByUserId := inviter, invitationToken := tok,
               expiresAt := c + 7 * msPerDay, acceptedAt := none }],
          nextId := st.nextId + 1 } := (congrArg Prod.snd hc).symm
    subst hst1
    have hfound : UserInvitationRepository.findByToken
        { st with
          invitations := st.invitations ++
            [{ id := st.nextId, organizationId := orgId, email := email, role := role,
               invitedByUserId := inviter, invitationToken := tok,
               expiresAt := c + 7 * msPerDay, acceptedAt := none }],
          nextId := st.nextId + 1 } tok =
        some { id := st.nextId, organizationId := orgId, email := email, role := role,
               invitedByUserId := inviter, invitationToken := tok,
               expiresAt := c + 7 * msPerDay, acceptedAt := none } := by
      show (st.invitations ++ [_]).find? _ = _
      rw [List.find?_append]
      have h1 : st.invitations.find? (fun i => i.invitationToken == tok) = none := by
        rw [List.find?_eq_none]
        intro i hi
        simpa using hfresh i hi
      rw [h1, Option.none_or]
      exact List.find?_cons_of_pos _ (beq_self_eq_true tok)
    exact acceptInvitation_expired hfound hlt
  · intro r st' h
    obtain ⟨inv, hfind, hval, _⟩ := acceptInvitation_ok_shape h
    have hiff := (isValid_true_iff hfind).mp hval
    exact ⟨inv, hfind, hiff.1, hiff.2⟩

/-- C9 witness: an unknown token fails; a freshly created invitation
accepted at time 10 succeeds and a second accept at time 20 fails; the
same fresh invitation accepted just past the 7-day expiry fails. -/
theorem acceptInvitation_spec_witness :
    (InvitationService.acceptInvitation { invitations := [], users := [], nextId := 1 } "zzz"
      { displayName := "D", password := "p" } 5 = .error "Invitation not found") ∧
    (∃ r st', InvitationService.acceptInvitation
        { invitations := [
            { id := 1, organizationId := 10, email := "member@acme.test", role := "member",
              invitedByUserId := 7, invitationToken := "tok",
              expiresAt := 7 * msPerDay, acceptedAt := none }],
          users := [], nextId := 2 } "tok" { displayName := "D", password := "p" } 10 =
        .ok (r, st') ∧
      InvitationService.acceptInvitation st' "tok" { displayName := "D", password := "p" } 20 =
        .error "Invitation is invalid or has expired" ∧
      ∃ inv, UserInvitationRepository.findByToken
        { invitations := [
            { id := 1, organizationId := 10, email := "member@acme.test", role := "member",
              invitedByUserId := 7, invitationToken := "tok",
              expiresAt := 7 * msPerDay, acceptedAt := none }],
          users := [], nextId := 2 } "tok" = some inv ∧
        inv.acceptedAt = none ∧ 10 ≤ inv.expiresAt) ∧
    (InvitationService.acceptInvitation
        { invitations := [
            { id := 1, organizationId := 10, email := "member@acme.test", role := "member",
              invitedByUserId := 7, invitationToken := "tok",
              expiresAt := 7 * msPerDay, acceptedAt := none }],
          users := [], nextId := 2 } "tok" { displayName := "D", password := "p" }
        (7 * msPerDay + 1) = .error "Invitation is invalid or has expired") := by
  refine ⟨(acceptInvitation_spec { invitations := [], users := [], nextId := 1 } "zzz"
    { displayName := "D", password := "p" } 5).1 (by decide), ?_, ?_⟩
  · refine ⟨_, _, rfl, ?_, ?_⟩
    · exact (acceptInvitation_spec
        { invitations := [
            { id := 1, organizationId := 10, email := "member@acme.test", role := "member",
              invitedByUserId := 7, invitationToken := "tok",
              expiresAt := 7 * msPerDay, acceptedAt := none }],
          users := [], nextId := 2 } "tok" { displayName := "D", password := "p" } 10).2.1
        _ _ rfl { displayName := "D", password := "p" } 20
    · exact (acceptInvitation_spec
        { invitations := [
            { id := 1, organizationId := 10, email := "member@acme.test", role := "member",
              invitedByUserId := 7, invitationToken := "tok",
              expiresAt := 7 * msPerDay, acceptedAt := none }],
          users := [], nextId := 2 } "tok" { displayName := "D", password := "p" } 10).2.2.2.2
        _ _ rfl
  · exact (acceptInvitation_spec
      { invitations := [
          { id := 1, organizationId := 10, email := "member@acme.test", role := "member",
            invitedByUserId := 7, invitationToken := "tok",
            expiresAt := 7 * msPerDay, acceptedAt := none }],
        users := [], nextId := 2 } "tok" { displayName := "D", password := "p" }
      (7 * msPerDay + 1)).2.2.1
      { id := 1, organizationId := 10, email := "member@acme.test", role := "member",
        invitedByUserId := 7, invitationToken := "tok",
        expiresAt := 7 * msPerDay, acceptedAt := none } rfl rfl (by decide)

end Trackscargo

